import Mathlib

/-!
# Verification of the AppLauncher update pipeline (src/main.rs)

A shallow embedding of the patch-update pipeline of `src/main.rs`:
the helper thread (catalog fetch, per-patch download / checksum / apply
loop, manifest persistence), the scoped cleanup guards (`defer!`,
`defer_on_unwind!`), the progress channel event strings, and the
consumer side of `event_loop.on_tick` (the `contains("error")` match and
the launch / exit decision).

External effects (HTTP, filesystem, the butler subprocess) are driven by
an explicit oracle (`PatchEnv`, `RunEnv`): one Boolean per fallible
library call of the source, saying whether that call succeeds, plus the
downloaded bytes and the subprocess outcome.  Panics (`unwrap`/`expect`)
become explicit exit branches; scope guards are applied on every exit
path exactly as the compiled drop order runs them (LIFO).  Filesystem
removal by a guard is modelled as always succeeding, matching the
spec's stipulation that cleanup errors are themselves fatal.
-/

set_option maxRecDepth 10000

namespace AppLauncher

/-- `AppEntry` from src/main.rs: install dir and the `u16` patch level.
The `patch` field is a `u16` in the source; every write in the model
reduces mod 2^16 (the `patch.id as u16` cast). -/
structure AppEntry where
  dir : String
  patch : Nat
  deriving Repr, DecidableEq

/-- `PatchInfo` from src/main.rs (the catalog's patch descriptor). -/
structure PatchInfo where
  id : Nat
  app : String
  name : String
  platform : String
  issuer : Int
  url : String
  hash : Nat
  sig : String
  sig_hash : Nat
  arch : String
  deriving Repr, DecidableEq

/-- One reflected-bit step of CRC-32C (Castagnoli polynomial 0x82F63B78),
as computed by the `crc32c` crate used at `crc32c::crc32c(...)`. -/
def crcBitStep (c : Nat) : Nat :=
  if c % 2 = 1 then (c / 2) ^^^ 0x82F63B78 else c / 2

/-- Fold one input byte into the CRC state (8 bit steps). -/
def crcByteStep (c b : Nat) : Nat :=
  (List.range 8).foldl (fun a _ => crcBitStep a) (c ^^^ (b % 256))

/-- CRC-32C of a byte sequence: init 0xFFFFFFFF, final xor 0xFFFFFFFF. -/
def crc32c (data : List Nat) : Nat :=
  (data.foldl crcByteStep 0xFFFFFFFF) ^^^ 0xFFFFFFFF

/-! ## Progress channel event strings

Exactly the strings the helper thread sends.  The three counter-bearing
messages mirror `format!("... ({}/{})...", i, total_tasks)`. -/

def contactMsg : String := "Contacting Server..."
def serverErrMsg : String := "ERROR: Update server did not respond."
def patchCrcMsg : String := "CRC32 Checksum on patch did not match."
def sigCrcMsg : String := "CRC32 Checksum on signature did not match."
def allokMsg : String := "allok"
def unwindMsg : String := "An error has occured."

def dlMsg (i t : Nat) : String :=
  "Downloading File (" ++ Nat.repr i ++ "/" ++ Nat.repr t ++ ")..."

def cmpMsg (i t : Nat) : String :=
  "Comparing File Hashes (" ++ Nat.repr i ++ "/" ++ Nat.repr t ++ ")..."

def applyMsg (i t : Nat) : String :=
  "Applying (" ++ Nat.repr i ++ "/" ++ Nat.repr t ++ ")..."

/-! ## Oracle for one iteration of the per-patch loop -/

/-- Outcomes of the external calls made by one iteration of the
`for patch in patch_list.iter()` loop.  A `false` flag means the
corresponding `unwrap()`/`expect("")` in the source panics there.
`exitCode` is the butler subprocess exit status; the source receives it
in `cmd_output` but never reads it. -/
structure PatchEnv where
  createPatchOk : Bool
  dlPatchOk : Bool
  createSigOk : Bool
  dlSigOk : Bool
  patchBytes : List Nat
  sigBytes : List Nat
  readPatchOk : Bool
  readSigOk : Bool
  mkWorkdirOk : Bool
  butlerOk : Bool
  exitCode : Nat
  outUtf8Ok : Bool
  deriving Repr, DecidableEq

/-- Abstract record of the pipeline sub-steps actually performed,
tagged with the index `k` of the patch in the catalog list. -/
inductive Step where
  | dlPatch (k : Nat)
  | dlSig (k : Nat)
  | verifyPatch (k : Nat)
  | verifySig (k : Nat)
  | applyPatch (k : Nat) (id : Nat)
  | advance (k : Nat) (id : Nat)
  deriving Repr, DecidableEq

def stepIdx : Step → Nat
  | .dlPatch k => k
  | .dlSig k => k
  | .verifyPatch k => k
  | .verifySig k => k
  | .applyPatch k _ => k
  | .advance k _ => k

/-- Worker-side state threaded through the loop: events sent so far,
step trace, the set of paths currently present in the working
directory (as a list of names), the `i` progress counter, and the
in-memory `entry.patch` level. -/
structure WState where
  events : List String
  trace : List Step
  fs : List String
  i : Nat
  level : Nat
  deriving Repr, DecidableEq

/-- A path appears on disk (`fs::File::create` / `fs::create_dir`). -/
def fsAdd (fs : List String) (n : String) : List String := n :: fs

/-- A path is removed (`fs::remove_file` / `fs::remove_dir_all`). -/
def fsRemove (fs : List String) (n : String) : List String :=
  fs.filter (fun m => m ≠ n)

/-- The `defer! { fs::remove_file("tmp-file.pwr") }` guard. -/
def dropPwr (s : WState) : WState :=
  { s with fs := fsRemove s.fs "tmp-file.pwr" }

/-- The `defer! { fs::remove_file("tmp-file.pwr.sig") }` guard. -/
def dropSig (s : WState) : WState :=
  { s with fs := fsRemove s.fs "tmp-file.pwr.sig" }

/-- The `defer! { fs::remove_dir_all("butler-workingdir") }` guard. -/
def dropWorkdir (s : WState) : WState :=
  { s with fs := fsRemove s.fs "butler-workingdir" }

/-- How one loop iteration ends: fall through to the next patch, early
`return` from the closure, or a panic that unwinds the thread. -/
inductive Outcome where
  | ok
  | ret
  | panic
  deriving Repr, DecidableEq

/-- One iteration of the per-patch loop (src/main.rs lines 272-369),
for the patch `p` at catalog index `k`, with oracle `e`.  Guards
registered in the iteration run in LIFO order on every exit path. -/
def runPatch (total k : Nat) (p : PatchInfo) (e : PatchEnv) (s : WState) :
    WState × Outcome :=
  -- notify_finished_download_task (before the patch download)
  let i1 := s.i + 1
  let s := { s with i := i1, events := s.events ++ [dlMsg i1 total] }
  if !e.createPatchOk then (s, Outcome.panic) else
  let s := { s with fs := fsAdd s.fs "tmp-file.pwr" }
  if !e.dlPatchOk then (dropPwr s, Outcome.panic) else
  let s := { s with trace := s.trace ++ [Step.dlPatch k] }
  -- notify_finished_download_task (before the signature download)
  let i2 := s.i + 1
  let s := { s with i := i2, events := s.events ++ [dlMsg i2 total] }
  if !e.createSigOk then (dropPwr s, Outcome.panic) else
  let s := { s with fs := fsAdd s.fs "tmp-file.pwr.sig" }
  if !e.dlSigOk then (dropPwr (dropSig s), Outcome.panic) else
  let s := { s with trace := s.trace ++ [Step.dlSig k] }
  -- notify_finished_checksum_task; fs::read + crc32c on tmp-file.pwr
  let i3 := s.i + 1
  let s := { s with i := i3, events := s.events ++ [cmpMsg i3 total] }
  if !e.readPatchOk then (dropPwr (dropSig s), Outcome.panic) else
  let s := { s with trace := s.trace ++ [Step.verifyPatch k] }
  if crc32c e.patchBytes ≠ p.hash then
    (dropPwr (dropSig { s with events := s.events ++ [patchCrcMsg] }), Outcome.ret) else
  -- notify_finished_checksum_task; fs::read + crc32c on tmp-file.pwr.sig
  let i4 := s.i + 1
  let s := { s with i := i4, events := s.events ++ [cmpMsg i4 total] }
  if !e.readSigOk then (dropPwr (dropSig s), Outcome.panic) else
  let s := { s with trace := s.trace ++ [Step.verifySig k] }
  if crc32c e.sigBytes ≠ p.sig_hash then
    (dropPwr (dropSig { s with events := s.events ++ [sigCrcMsg] }), Outcome.ret) else
  -- notify_finished_applying_task; create butler-workingdir, run butler
  let i5 := s.i + 1
  let s := { s with i := i5, events := s.events ++ [applyMsg i5 total] }
  if !e.mkWorkdirOk then (dropPwr (dropSig s), Outcome.panic) else
  let s := { s with fs := fsAdd s.fs "butler-workingdir" }
  if !e.butlerOk then (dropPwr (dropSig (dropWorkdir s)), Outcome.panic) else
  -- stdout/stderr are printed (not sent); from_utf8().expect can panic.
  -- cmd_output.status is never examined by the source.
  if !e.outUtf8Ok then (dropPwr (dropSig (dropWorkdir s)), Outcome.panic) else
  let s := { s with trace := s.trace ++ [Step.applyPatch k p.id] }
  -- entry.patch = patch.id as u16
  let s := { s with level := p.id % 65536, trace := s.trace ++ [Step.advance k p.id] }
  (dropPwr (dropSig (dropWorkdir s)), Outcome.ok)

/-- The `for patch in patch_list.iter()` loop, starting at index `k`. -/
def runLoop (total : Nat) : Nat → List (PatchInfo × PatchEnv) → WState → WState × Outcome
  | _, [], s => (s, Outcome.ok)
  | k, (p, e) :: rest, s =>
    match runPatch total k p e s with
    | (s', Outcome.ok) => runLoop total (k + 1) rest s'
    | (s', o) => (s', o)

/-- The manifest file on disk: absent, a well-formed file holding these
games, or the leftover of a write that did not complete (the persist
paths truncate-then-write without any atomic rename). -/
inductive DiskManifest where
  | absent
  | intact (games : List (String × AppEntry))
  | halfWritten
  deriving Repr, DecidableEq

/-- `HashMap::insert`: any previous entry under the key is replaced. -/
def upsert (g : List (String × AppEntry)) (k : String) (v : AppEntry) :
    List (String × AppEntry) :=
  g.filter (fun kv => kv.1 ≠ k) ++ [(k, v)]

def gameName : String := "unnamed-sdvx-clone"

/-- Whole-run oracle for the helper thread. -/
structure RunEnv where
  entry0 : AppEntry
  games0 : List (String × AppEntry)
  manifestFound : Bool
  diskInit : DiskManifest
  catalogSendOk : Bool
  statusOk : Bool
  decodeOk : Bool
  patches : List (PatchInfo × PatchEnv)
  projDirsSome : Bool
  persistOk : Bool
  deriving Repr, DecidableEq

/-- Observable result of one helper-thread run. -/
structure RunResult where
  events : List String
  trace : List Step
  fs : List String
  counter : Nat
  level : Nat
  inserted : Bool
  writeAttempts : Nat
  disk : DiskManifest
  panicked : Bool
  deriving Repr, DecidableEq

def initState (env : RunEnv) (fs0 : List String) : WState :=
  { events := [contactMsg], trace := [], fs := fs0, i := 0,
    level := env.entry0.patch }

/-- The helper thread closure (src/main.rs lines 220-400): catalog
fetch, the per-patch loop, the `allok` sentinel, `games.insert`, and
the manifest persist.  On a panic the `defer_on_unwind!` guard appends
`unwindMsg` before the channel closes. -/
def workerRun (env : RunEnv) (fs0 : List String) : RunResult :=
  let s0 := initState env fs0
  if !env.catalogSendOk then
    { events := s0.events ++ [unwindMsg], trace := [], fs := fs0, counter := 0,
      level := env.entry0.patch, inserted := false, writeAttempts := 0,
      disk := env.diskInit, panicked := true }
  else if !env.statusOk then
    { events := s0.events ++ [serverErrMsg], trace := [], fs := fs0, counter := 0,
      level := env.entry0.patch, inserted := false, writeAttempts := 0,
      disk := env.diskInit, panicked := false }
  else if !env.decodeOk then
    { events := s0.events ++ [unwindMsg], trace := [], fs := fs0, counter := 0,
      level := env.entry0.patch, inserted := false, writeAttempts := 0,
      disk := env.diskInit, panicked := true }
  else
    let total := env.patches.length * 5
    match runLoop total 0 env.patches s0 with
    | (s, Outcome.panic) =>
      { events := s.events ++ [unwindMsg], trace := s.trace, fs := s.fs,
        counter := s.i, level := s.level, inserted := false, writeAttempts := 0,
        disk := env.diskInit, panicked := true }
    | (s, Outcome.ret) =>
      { events := s.events, trace := s.trace, fs := s.fs, counter := s.i,
        level := s.level, inserted := false, writeAttempts := 0,
        disk := env.diskInit, panicked := false }
    | (s, Outcome.ok) =>
      let ev := s.events ++ [allokMsg]
      let games1 := upsert env.games0 gameName
        { dir := env.entry0.dir, patch := s.level }
      if env.projDirsSome then
        if env.persistOk then
          { events := ev, trace := s.trace, fs := s.fs, counter := s.i,
            level := s.level, inserted := true, writeAttempts := 1,
            disk := .intact games1, panicked := false }
        else
          { events := ev ++ [unwindMsg], trace := s.trace, fs := s.fs,
            counter := s.i, level := s.level, inserted := true, writeAttempts := 1,
            disk := .halfWritten, panicked := true }
      else
        { events := ev, trace := s.trace, fs := s.fs, counter := s.i,
          level := s.level, inserted := true, writeAttempts := 0,
          disk := env.diskInit, panicked := false }

/-! ## The consumer (event_loop.on_tick, src/main.rs lines 415-466) -/

/-- `haystack.contains(needle)` of Rust `str`: substring search. -/
def containsSub (hay needle : String) : Bool :=
  hay.data.tails.any (fun t => needle.data.isPrefixOf t)

/-- One received event, folded into `err_occurred` exactly as the
`on_tick` closure does: `"allok"` is handled first, then events
containing the (lowercase) substring `"error"` set the flag. -/
def consumeEvent (err : Bool) (ev : String) : Bool :=
  if ev = allokMsg then err
  else if containsSub ev "error" then true
  else err

/-- `err_occurred` after the channel is drained and disconnects. -/
def errOccurred (events : List String) : Bool :=
  events.foldl consumeEvent false

/-- Whether the consumer takes the launch branch (spawns the game). -/
def launches (events : List String) : Bool := !errOccurred events

/-- The process exit status chosen by the consumer once the update
phase ends: 3 after the error alert, otherwise 0 (after launching). -/
def exitCode (events : List String) : Nat :=
  if errOccurred events then 3 else 0

/-! ## Run classification predicates -/

/-- Every external call of this iteration succeeds and both checksums
match: the iteration falls through to the next patch. -/
def goodItemB (x : PatchInfo × PatchEnv) : Bool :=
  x.2.createPatchOk && x.2.dlPatchOk && x.2.createSigOk && x.2.dlSigOk &&
  x.2.readPatchOk && x.2.readSigOk && x.2.mkWorkdirOk && x.2.butlerOk &&
  x.2.outUtf8Ok && (crc32c x.2.patchBytes == x.1.hash) &&
  (crc32c x.2.sigBytes == x.1.sig_hash)

/-- Calls succeed up to the patch-checksum comparison, which fails. -/
def badPatchHashB (x : PatchInfo × PatchEnv) : Bool :=
  x.2.createPatchOk && x.2.dlPatchOk && x.2.createSigOk && x.2.dlSigOk &&
  x.2.readPatchOk && (crc32c x.2.patchBytes != x.1.hash)

/-- Calls succeed and the patch checksum matches, but the signature
checksum comparison fails. -/
def badSigHashB (x : PatchInfo × PatchEnv) : Bool :=
  x.2.createPatchOk && x.2.dlPatchOk && x.2.createSigOk && x.2.dlSigOk &&
  x.2.readPatchOk && (crc32c x.2.patchBytes == x.1.hash) && x.2.readSigOk &&
  (crc32c x.2.sigBytes != x.1.sig_hash)

/-- Everything succeeds up to the butler invocation, whose
`Command::output()` itself fails (the subprocess could not be run). -/
def butlerFailB (x : PatchInfo × PatchEnv) : Bool :=
  x.2.createPatchOk && x.2.dlPatchOk && x.2.createSigOk && x.2.dlSigOk &&
  x.2.readPatchOk && x.2.readSigOk && x.2.mkWorkdirOk &&
  (crc32c x.2.patchBytes == x.1.hash) && (crc32c x.2.sigBytes == x.1.sig_hash) &&
  !x.2.butlerOk

/-- The five progress events this iteration emits on full success,
numbered from `base + 1` to `base + 5`. -/
def patchEvents (total base : Nat) : List String :=
  [dlMsg (base + 1) total, dlMsg (base + 2) total, cmpMsg (base + 3) total,
   cmpMsg (base + 4) total, applyMsg (base + 5) total]

/-- Progress events of a run in which every iteration succeeds. -/
def goodEvents (total : Nat) : Nat → List (PatchInfo × PatchEnv) → List String
  | _, [] => []
  | base, _ :: xs => patchEvents total base ++ goodEvents total (base + 5) xs

/-- The sub-steps one fully successful iteration performs, in order. -/
def itemTrace (k pid : Nat) : List Step :=
  [Step.dlPatch k, Step.dlSig k, Step.verifyPatch k, Step.verifySig k,
   Step.applyPatch k pid, Step.advance k pid]

/-- Step trace of a run in which every iteration succeeds. -/
def goodTrace : Nat → List (PatchInfo × PatchEnv) → List Step
  | _, [] => []
  | k, x :: xs => itemTrace k x.1.id ++ goodTrace (k + 1) xs

/-- `entry.patch` after applying all of `ps` starting from level `lv`. -/
def levelAfter (lv : Nat) (ps : List (PatchInfo × PatchEnv)) : Nat :=
  ps.foldl (fun _ x => x.1.id % 65536) lv

/-- The catalog identifiers of the patches a trace applied, in order. -/
def appliedIds (tr : List Step) : List Nat :=
  tr.filterMap fun st =>
    match st with
    | Step.applyPatch _ pid => some pid
    | _ => none

/-- Identifier of the last patch in the list (0 if empty). -/
def lastId (ps : List (PatchInfo × PatchEnv)) : Nat :=
  (ps.map (fun x => x.1.id)).getLastD 0

/-- None of the three temporary artifact names is present. -/
def cleanFs (l : List String) : Prop :=
  "tmp-file.pwr" ∉ l ∧ "tmp-file.pwr.sig" ∉ l ∧ "butler-workingdir" ∉ l

/-- Replace the butler exit status the oracle reports (which the source
never reads) by 0. -/
def scrubPE (e : PatchEnv) : PatchEnv := { e with exitCode := 0 }

def scrubExit (env : RunEnv) : RunEnv :=
  { env with patches := env.patches.map (fun x => (x.1, scrubPE x.2)) }

def loopOut (env : RunEnv) (fs0 : List String) : WState × Outcome :=
  runLoop (env.patches.length * 5) 0 env.patches (initState env fs0)

/-! ## Concrete environments for witnesses and counterexamples -/

/-- Oracle for an iteration in which every external call succeeds, the
downloaded files are empty (CRC-32C 0), and butler exits 0. -/
def okPE : PatchEnv :=
  { createPatchOk := true, dlPatchOk := true, createSigOk := true,
    dlSigOk := true, patchBytes := [], sigBytes := [], readPatchOk := true,
    readSigOk := true, mkWorkdirOk := true, butlerOk := true, exitCode := 0,
    outUtf8Ok := true }

/-- A catalog descriptor whose two expected checksums are the CRC-32C
of the empty file (0), with identifier `pid`. -/
def mkPatch (pid : Nat) : PatchInfo :=
  { id := pid, app := gameName, name := "patch", platform := "win32",
    issuer := 0, url := "https://orchestra.fm/p.pwr", hash := 0,
    sig := "https://orchestra.fm/p.pwr.sig", sig_hash := 0, arch := "x64" }

/-- A run oracle with the given patch list and every run-level call
succeeding. -/
def baseEnv (ps : List (PatchInfo × PatchEnv)) : RunEnv :=
  { entry0 := { dir := "D:/usc", patch := 0 }, games0 := [],
    manifestFound := true, diskInit := DiskManifest.intact [],
    catalogSendOk := true, statusOk := true, decodeOk := true, patches := ps,
    projDirsSome := true, persistOk := true }

/-- One patch; butler runs and exits with status 1; everything else
succeeds. -/
def cexApplyEnv : RunEnv :=
  baseEnv [(mkPatch 7, { okPE with exitCode := 1 })]

/-- One patch, fully successful run. -/
def goodEnv1 : RunEnv := baseEnv [(mkPatch 7, okPE)]

/-- One patch whose identifier 70000 exceeds the u16 range. -/
def cexTruncEnv : RunEnv := baseEnv [(mkPatch 70000, okPE)]

/-- One patch whose downloaded payload hashes to 0 while the catalog
expects 1: the patch-checksum comparison fails. -/
def cexChecksumEnv : RunEnv :=
  baseEnv [({ mkPatch 7 with hash := 1 }, okPE)]

/-- Empty patch list, but the manifest write itself fails. -/
def cexPersistEnv : RunEnv := { baseEnv [] with persistOk := false }

/-- One patch for which the butler subprocess cannot be started. -/
def wbutlerEnv : RunEnv :=
  baseEnv [(mkPatch 7, { okPE with butlerOk := false })]

/-- Two patches with ids 5 and 9, both fully successful. -/
def wchecksum2good : RunEnv :=
  baseEnv [(mkPatch 5, okPE), (mkPatch 9, okPE)]

/-- Three patches of which the second fails its patch-hash check. -/
def wchecksum3Env : RunEnv :=
  baseEnv [(mkPatch 5, okPE), ({ mkPatch 6 with hash := 1 }, okPE),
    (mkPatch 9, okPE)]

/-! ## The manifest file: model of `toml::to_string` / `toml::from_slice`

The source persists `InstallManifest { games: HashMap<String, AppEntry> }`
with `toml::to_string` and reads it back with `toml::from_slice`.  The
serialization is modelled concretely for this one data shape: one
`[games.<key>]` table per entry holding `dir = "<string>"` and
`patch = <integer>` lines in declaration order, keys emitted bare when
TOML allows (`[A-Za-z0-9_-]+`) and as escaped basic strings otherwise,
and a lone `[games]` header for the empty map.  Whitespace niceties of
the concrete library (a blank line between consecutive tables) are
dropped; escaping is modelled for the characters the manifest can
realistically carry, and the decoder is the exact inverse grammar. -/

def escChar (c : Char) : List Char :=
  if c = '\\' then ['\\', '\\']
  else if c = '"' then ['\\', '"']
  else if c = '\n' then ['\\', 'n']
  else if c = '\t' then ['\\', 't']
  else if c = '\r' then ['\\', 'r']
  else [c]

def escape (l : List Char) : List Char :=
  l.foldr (fun c acc => escChar c ++ acc) []

def unescChar (c : Char) : Option Char :=
  if c = '\\' then some '\\'
  else if c = '"' then some '"'
  else if c = 'n' then some '\n'
  else if c = 't' then some '\t'
  else if c = 'r' then some '\r'
  else none

/-- Parse the remainder of a basic string up to and including the
closing quote; return the unescaped content and the rest. -/
def parseQuoted : List Char → Option (List Char × List Char)
  | [] => none
  | c :: rest =>
    if c = '"' then some ([], rest)
    else if c = '\\' then
      match rest with
      | [] => none
      | d :: rest' =>
        match unescChar d with
        | none => none
        | some c' =>
          match parseQuoted rest' with
          | none => none
          | some sr => some (c' :: sr.1, sr.2)
    else
      match parseQuoted rest with
      | none => none
      | some sr => some (c :: sr.1, sr.2)

def isBareChar (c : Char) : Bool := c.isAlphanum || c = '_' || c = '-'

def isBareKey (k : String) : Bool := !k.data.isEmpty && k.data.all isBareChar

def encKey (k : String) : List Char :=
  if isBareKey k then k.data else '"' :: (escape k.data ++ ['"'])

def parseKey : List Char → Option (List Char × List Char)
  | [] => none
  | c :: rest =>
    if c = '"' then parseQuoted rest
    else
      let ds := (c :: rest).takeWhile isBareChar
      if ds = [] then none else some (ds, (c :: rest).drop ds.length)

def parseLit (lit input : List Char) : Option (List Char) :=
  if lit.isPrefixOf input then some (input.drop lit.length) else none

def charVal (c : Char) : Nat := c.toNat - '0'.toNat

def digitsVal (l : List Char) : Nat :=
  l.foldl (fun a c => a * 10 + charVal c) 0

def parseNatChars (input : List Char) : Option (Nat × List Char) :=
  let ds := input.takeWhile Char.isDigit
  if ds = [] then none else some (digitsVal ds, input.drop ds.length)

def encEntry (k : String) (e : AppEntry) : List Char :=
  "[games.".data ++ encKey k ++ "]\n".data ++
  "dir = \"".data ++ escape e.dir.data ++ "\"\n".data ++
  "patch = ".data ++ (Nat.repr e.patch).data ++ "\n".data

def parseEntry (input : List Char) : Option ((String × AppEntry) × List Char) :=
  match parseLit "[games.".data input with
  | none => none
  | some r1 =>
  match parseKey r1 with
  | none => none
  | some kr =>
  match parseLit "]\n".data kr.2 with
  | none => none
  | some r3 =>
  match parseLit "dir = \"".data r3 with
  | none => none
  | some r4 =>
  match parseQuoted r4 with
  | none => none
  | some dr =>
  match parseLit "\n".data dr.2 with
  | none => none
  | some r6 =>
  match parseLit "patch = ".data r6 with
  | none => none
  | some r7 =>
  match parseNatChars r7 with
  | none => none
  | some nr =>
  match parseLit "\n".data nr.2 with
  | none => none
  | some r9 => some ((String.mk kr.1, { dir := String.mk dr.1, patch := nr.1 }), r9)

def encChain : List (String × AppEntry) → List Char
  | [] => []
  | kv :: rest => encEntry kv.1 kv.2 ++ encChain rest

/-- `toml::to_string(&manifest)` (as bytes / chars). -/
def encManifest (g : List (String × AppEntry)) : List Char :=
  if g = [] then "[games]\n".data else encChain g

def parseEntriesFuel : Nat → List Char → Option (List (String × AppEntry))
  | fuel, input =>
    if input = [] then some []
    else
      match fuel with
      | 0 => none
      | fuel + 1 =>
        match parseEntry input with
        | none => none
        | some kvr =>
          match parseEntriesFuel fuel kvr.2 with
          | none => none
          | some rest => some (kvr.1 :: rest)

/-- `toml::from_slice::<InstallManifest>` on the file's content. -/
def decodeManifest (input : List Char) : Option (List (String × AppEntry)) :=
  if input = "[games]\n".data then some []
  else parseEntriesFuel input.length input

/-- Building the in-memory `games` map from a sequence of inserts:
`HashMap` semantics, a later insert under the same name replaces the
earlier entry. -/
def mkGames (entries : List (String × AppEntry)) : List (String × AppEntry) :=
  entries.foldl (fun acc kv => upsert acc kv.1 kv.2) []

/-! ## Infrastructure: decimal digits of `Nat.repr` -/

theorem digitChar_isDigit {m : Nat} (h : m < 10) : (Nat.digitChar m).isDigit = true := by
  interval_cases m <;> decide

theorem toDigitsCore_digits (fuel : Nat) : ∀ (n : Nat) (acc : List Char),
    (∀ c ∈ acc, c.isDigit = true) →
    ∀ c ∈ Nat.toDigitsCore 10 fuel n acc, c.isDigit = true := by
  induction fuel with
  | zero => intro n acc hacc c hc; exact hacc c hc
  | succ f ih =>
    intro n acc hacc c hc
    simp only [Nat.toDigitsCore] at hc
    have hcons : ∀ c ∈ Nat.digitChar (n % 10) :: acc, c.isDigit = true := by
      intro c hc
      rcases List.mem_cons.mp hc with h | h
      · subst h; exact digitChar_isDigit (Nat.mod_lt _ (by omega))
      · exact hacc c h
    split at hc
    · exact hcons c hc
    · exact ih _ _ hcons c hc

theorem repr_digits (n : Nat) : ∀ c ∈ (Nat.repr n).data, c.isDigit = true := by
  intro c hc
  have : (Nat.repr n).data = Nat.toDigitsCore 10 (n + 1) n [] := rfl
  rw [this] at hc
  exact toDigitsCore_digits (n + 1) n [] (by intro c hc; cases hc) c hc

theorem toDigitsCore_length_le (fuel : Nat) : ∀ (n : Nat) (acc : List Char),
    acc.length ≤ (Nat.toDigitsCore 10 fuel n acc).length := by
  induction fuel with
  | zero => intro n acc; simp [Nat.toDigitsCore]
  | succ f ih =>
    intro n acc
    simp only [Nat.toDigitsCore]
    split
    · simp
    · calc acc.length ≤ (Nat.digitChar (n % 10) :: acc).length := by simp
        _ ≤ _ := ih _ _

theorem repr_ne_nil (n : Nat) : (Nat.repr n).data ≠ [] := by
  have h : (Nat.repr n).data = Nat.toDigitsCore 10 (n + 1) n [] := rfl
  rw [h]
  simp only [Nat.toDigitsCore]
  split
  · simp
  · intro hnil
    have := toDigitsCore_length_le n (n / 10) [Nat.digitChar (n % 10)]
    rw [hnil] at this
    simp at this

/-! ## Infrastructure: Rust substring search -/

theorem containsSub_iff (hay needle : String) :
    containsSub hay needle = true ↔ needle.data <:+: hay.data := by
  unfold containsSub
  rw [List.any_eq_true]
  constructor
  · rintro ⟨t, ht, hp⟩
    rw [List.mem_tails _ _] at ht
    rw [List.isPrefixOf_iff_prefix] at hp
    exact List.infix_iff_prefix_suffix.mpr ⟨t, hp, ht⟩
  · intro h
    rcases List.infix_iff_prefix_suffix.mp h with ⟨t, hp, ht⟩
    exact ⟨t, (List.mem_tails _ _).mpr ht, List.isPrefixOf_iff_prefix.mpr hp⟩

theorem containsSub_false_iff (hay needle : String) :
    containsSub hay needle = false ↔ ¬ needle.data <:+: hay.data := by
  rw [← containsSub_iff]
  cases h : containsSub hay needle <;> simp [h]

theorem infix_split {α : Type} {x a b : List α} (h : x <:+: a ++ b) :
    x <:+: a ∨ x <:+: b ∨
      ∃ x₁ x₂, x = x₁ ++ x₂ ∧ x₁ ≠ [] ∧ x₂ ≠ [] ∧ x₁ <:+ a ∧ x₂ <+: b := by
  rcases h with ⟨s, t, heq⟩
  rw [List.append_assoc] at heq
  have ha : a = (s ++ (x ++ t)).take a.length := by
    rw [heq]; exact (List.take_left a b).symm
  have hb : b = (s ++ (x ++ t)).drop a.length := by
    rw [heq]; exact (List.drop_left a b).symm
  by_cases h1 : s.length + x.length ≤ a.length
  · left
    rw [List.take_append_eq_append_take, List.take_append_eq_append_take] at ha
    rw [List.take_of_length_le (by omega), List.take_of_length_le (by omega)] at ha
    exact ⟨s, t.take (a.length - s.length - x.length), by rw [ha]; simp [List.append_assoc]⟩
  · by_cases h2 : a.length ≤ s.length
    · right; left
      rw [List.drop_append_eq_append_drop] at hb
      rw [show a.length - s.length = 0 by omega, List.drop_zero] at hb
      exact ⟨s.drop a.length, t, by rw [hb]; simp [List.append_assoc]⟩
    · right; right
      refine ⟨x.take (a.length - s.length), x.drop (a.length - s.length), by simp,
        ?_, ?_, ?_, ?_⟩
      · intro hnil
        have hlen := congrArg List.length hnil
        rw [List.length_take] at hlen
        simp only [List.length_nil] at hlen
        rw [Nat.min_def] at hlen
        split at hlen <;> omega
      · intro hnil
        have hlen := congrArg List.length hnil
        rw [List.length_drop] at hlen
        simp only [List.length_nil] at hlen
        omega
      · rw [List.take_append_eq_append_take, List.take_append_eq_append_take] at ha
        rw [List.take_of_length_le (by omega)] at ha
        rw [show a.length - s.length - x.length = 0 by omega, List.take_zero,
          List.append_nil] at ha
        exact ⟨s, ha.symm⟩
      · rw [List.drop_append_eq_append_drop, List.drop_append_eq_append_drop] at hb
        rw [List.drop_eq_nil_of_le (by omega)] at hb
        rw [show a.length - s.length - x.length = 0 by omega, List.drop_zero] at hb
        simp only [List.nil_append] at hb
        exact ⟨t, hb.symm⟩

theorem infix_digit_sandwich {x l d r : List Char} (hxne : x ≠ [])
    (hd : d ≠ []) (hdd : ∀ c ∈ d, c.isDigit = true)
    (hx : ∀ c ∈ x, c.isDigit = false)
    (h : x <:+: l ++ (d ++ r)) : x <:+: l ∨ x <:+: r := by
  rcases infix_split h with h1 | h2 | ⟨x₁, x₂, hx12, hne1, hne2, hs, hp⟩
  · exact Or.inl h1
  · rcases infix_split h2 with hd1 | hr | ⟨y₁, y₂, hy, hyne1, hyne2, hys, hyp⟩
    · rcases x with _ | ⟨c, x'⟩
      · exact absurd rfl hxne
      · have hcd : c ∈ d := hd1.subset (List.mem_cons_self c x')
        have h1 := hdd c hcd
        have h2 := hx c (List.mem_cons_self c x')
        rw [h1] at h2
        exact absurd h2 (by simp)
    · exact Or.inr hr
    · rcases y₁ with _ | ⟨c, y'⟩
      · exact absurd rfl hyne1
      · have hcd : c ∈ d := hys.subset (List.mem_cons_self c y')
        have hcx : c ∈ x := by
          rw [hy]; exact List.mem_append_left _ (List.mem_cons_self c y')
        have h1 := hdd c hcd
        have h2 := hx c hcx
        rw [h1] at h2
        exact absurd h2 (by simp)
  · rcases x₂ with _ | ⟨c, x₂'⟩
    · exact absurd rfl hne2
    · rcases d with _ | ⟨e, d'⟩
      · exact absurd rfl hd
      · rcases hp with ⟨t2, ht2⟩
        simp only [List.cons_append, List.append_assoc] at ht2
        have hce : c = e := (List.cons.injEq _ _ _ _).mp ht2 |>.1
        have hcx : c ∈ x := by
          rw [hx12]; exact List.mem_append_right _ (List.mem_cons_self c x₂')
        have h1 := hdd e (List.mem_cons_self e d')
        have h2 := hx c hcx
        rw [hce, h1] at h2
        exact absurd h2 (by simp)

theorem data_append (s t : String) : (s ++ t).data = s.data ++ t.data := rfl

/-- No message of the shape `pre ++ <decimal> ++ mid ++ <decimal> ++ post`
contains the substring `"error"` when none of the three literal pieces
does: an occurrence cannot overlap a decimal number. -/
theorem no_error_fmt (pre mid post : String) (i t : Nat)
    (hpre : containsSub pre "error" = false)
    (hmid : containsSub mid "error" = false)
    (hpost : containsSub post "error" = false) :
    containsSub (pre ++ Nat.repr i ++ mid ++ Nat.repr t ++ post) "error" = false := by
  rw [containsSub_false_iff] at hpre hmid hpost ⊢
  intro h
  have hdata : (pre ++ Nat.repr i ++ mid ++ Nat.repr t ++ post).data
      = pre.data ++ ((Nat.repr i).data ++ (mid.data ++ ((Nat.repr t).data ++ post.data))) := by
    simp only [data_append, List.append_assoc]
  rw [hdata] at h
  have hxne : "error".data ≠ [] := by decide
  have hxdig : ∀ c ∈ "error".data, c.isDigit = false := by decide
  rcases infix_digit_sandwich hxne (repr_ne_nil i) (repr_digits i) hxdig h with h | h
  · exact hpre h
  · rcases infix_digit_sandwich hxne (repr_ne_nil t) (repr_digits t) hxdig h with h | h
    · exact hmid h
    · exact hpost h

theorem dlMsg_no_error (i t : Nat) : containsSub (dlMsg i t) "error" = false :=
  no_error_fmt "Downloading File (" "/" ")..." i t (by decide) (by decide) (by decide)

theorem cmpMsg_no_error (i t : Nat) : containsSub (cmpMsg i t) "error" = false :=
  no_error_fmt "Comparing File Hashes (" "/" ")..." i t (by decide) (by decide) (by decide)

theorem applyMsg_no_error (i t : Nat) : containsSub (applyMsg i t) "error" = false :=
  no_error_fmt "Applying (" "/" ")..." i t (by decide) (by decide) (by decide)

/-- Folding one event into `err_occurred` ors in its `"error"` test. -/
theorem consumeEvent_eq (err : Bool) (ev : String) :
    consumeEvent err ev = (err || containsSub ev "error") := by
  unfold consumeEvent
  split
  · next heq => subst heq; rw [show containsSub allokMsg "error" = false from by decide]; simp
  · split
    · next hc => simp [hc]
    · next hc => simp [Bool.eq_false_iff.mpr hc]

theorem errOccurred_eq_any (evs : List String) :
    errOccurred evs = evs.any (fun ev => containsSub ev "error") := by
  unfold errOccurred
  suffices h : ∀ b, evs.foldl consumeEvent b = (b || evs.any (fun ev => containsSub ev "error")) by
    simpa using h false
  induction evs with
  | nil => intro b; simp
  | cons ev evs ih =>
    intro b
    simp only [List.foldl_cons, List.any_cons, consumeEvent_eq, ih, Bool.or_assoc]

/-! ## fs helper lemmas -/

theorem fsRemove_of_not_mem {l : List String} {n : String} (h : n ∉ l) :
    fsRemove l n = l := by
  unfold fsRemove
  rw [List.filter_eq_self]
  intro a ha
  simp only [ne_eq, decide_eq_true_eq]
  rintro rfl
  exact h ha

theorem fsRemove_cons_self (l : List String) (n : String) :
    fsRemove (n :: l) n = fsRemove l n := by
  simp [fsRemove]

theorem fsRemove_cons_ne (m n : String) (l : List String) (h : m ≠ n) :
    fsRemove (m :: l) n = m :: fsRemove l n := by
  simp [fsRemove, h]

theorem cleanFs_nil : cleanFs [] :=
  ⟨List.not_mem_nil _, List.not_mem_nil _, List.not_mem_nil _⟩

/-! ## runPatch characterization -/

theorem fsClean1 {l : List String} (h : cleanFs l) :
    fsRemove ("tmp-file.pwr" :: l) "tmp-file.pwr" = l := by
  rw [fsRemove_cons_self, fsRemove_of_not_mem h.1]

theorem fsClean2 {l : List String} (h : cleanFs l) :
    fsRemove (fsRemove ("tmp-file.pwr.sig" :: "tmp-file.pwr" :: l) "tmp-file.pwr.sig")
      "tmp-file.pwr" = l := by
  rw [fsRemove_cons_self, fsRemove_cons_ne "tmp-file.pwr" "tmp-file.pwr.sig" _ (by decide),
    fsRemove_of_not_mem h.2.1, fsClean1 h]

theorem fsClean3 {l : List String} (h : cleanFs l) :
    fsRemove (fsRemove (fsRemove
        ("butler-workingdir" :: "tmp-file.pwr.sig" :: "tmp-file.pwr" :: l)
        "butler-workingdir") "tmp-file.pwr.sig") "tmp-file.pwr" = l := by
  rw [fsRemove_cons_self,
    fsRemove_cons_ne "tmp-file.pwr.sig" "butler-workingdir" _ (by decide),
    fsRemove_cons_ne "tmp-file.pwr" "butler-workingdir" _ (by decide),
    fsRemove_of_not_mem h.2.2]
  exact fsClean2 h

theorem runPatch_good (total k : Nat) (p : PatchInfo) (e : PatchEnv) (s : WState)
    (hg : goodItemB (p, e) = true) (hclean : cleanFs s.fs) :
    runPatch total k p e s =
      ({ events := s.events ++ patchEvents total s.i,
         trace := s.trace ++ itemTrace k p.id,
         fs := s.fs, i := s.i + 5, level := p.id % 65536 }, Outcome.ok) := by
  unfold goodItemB at hg
  simp only [Bool.and_eq_true, beq_iff_eq] at hg
  obtain ⟨⟨⟨⟨⟨⟨⟨⟨⟨⟨h1, h2⟩, h3⟩, h4⟩, h5⟩, h6⟩, h7⟩, h8⟩, h9⟩, h10⟩, h11⟩ := hg
  unfold runPatch
  simp only [h1, h2, h3, h4, h5, h6, h7, h8, h9, h10, h11, Bool.not_true,
    Bool.false_eq_true, if_false, ne_eq, not_true_eq_false, ite_false,
    not_false_eq_true, dropPwr, dropSig, dropWorkdir, fsAdd]
  rw [fsClean3 hclean]
  simp only [patchEvents, itemTrace, List.append_assoc, List.cons_append, List.nil_append,
    Nat.add_assoc, Nat.reduceAdd]

theorem runPatch_badPatchHash (total k : Nat) (p : PatchInfo) (e : PatchEnv) (s : WState)
    (hg : badPatchHashB (p, e) = true) (hclean : cleanFs s.fs) :
    runPatch total k p e s =
      ({ events := s.events ++ [dlMsg (s.i + 1) total, dlMsg (s.i + 2) total,
           cmpMsg (s.i + 3) total, patchCrcMsg],
         trace := s.trace ++ [Step.dlPatch k, Step.dlSig k, Step.verifyPatch k],
         fs := s.fs, i := s.i + 3, level := s.level }, Outcome.ret) := by
  unfold badPatchHashB at hg
  simp only [Bool.and_eq_true, bne_iff_ne, ne_eq] at hg
  obtain ⟨⟨⟨⟨⟨h1, h2⟩, h3⟩, h4⟩, h5⟩, h6⟩ := hg
  unfold runPatch
  simp only [h1, h2, h3, h4, h5, Bool.not_true, Bool.false_eq_true, if_false, ne_eq,
    ite_not, if_neg h6, ite_false, dropPwr, dropSig, dropWorkdir, fsAdd]
  rw [fsClean2 hclean]
  simp only [List.append_assoc, List.cons_append, List.nil_append, Nat.add_assoc,
    Nat.reduceAdd]

theorem runPatch_badSigHash (total k : Nat) (p : PatchInfo) (e : PatchEnv) (s : WState)
    (hg : badSigHashB (p, e) = true) (hclean : cleanFs s.fs) :
    runPatch total k p e s =
      ({ events := s.events ++ [dlMsg (s.i + 1) total, dlMsg (s.i + 2) total,
           cmpMsg (s.i + 3) total, cmpMsg (s.i + 4) total, sigCrcMsg],
         trace := s.trace ++ [Step.dlPatch k, Step.dlSig k, Step.verifyPatch k,
           Step.verifySig k],
         fs := s.fs, i := s.i + 4, level := s.level }, Outcome.ret) := by
  unfold badSigHashB at hg
  simp only [Bool.and_eq_true, bne_iff_ne, ne_eq, beq_iff_eq] at hg
  obtain ⟨⟨⟨⟨⟨⟨⟨h1, h2⟩, h3⟩, h4⟩, h5⟩, h6⟩, h7⟩, h8⟩ := hg
  unfold runPatch
  simp only [h1, h2, h3, h4, h5, h6, h7, Bool.not_true, Bool.false_eq_true, if_false,
    ne_eq, not_true_eq_false, ite_false, not_false_eq_true, ite_not, if_neg h8,
    dropPwr, dropSig, dropWorkdir, fsAdd]
  rw [fsClean2 hclean]
  simp only [List.append_assoc, List.cons_append, List.nil_append, Nat.add_assoc,
    Nat.reduceAdd]

theorem runPatch_butlerFail (total k : Nat) (p : PatchInfo) (e : PatchEnv) (s : WState)
    (hg : butlerFailB (p, e) = true) (hclean : cleanFs s.fs) :
    runPatch total k p e s =
      ({ events := s.events ++ patchEvents total s.i,
         trace := s.trace ++ [Step.dlPatch k, Step.dlSig k, Step.verifyPatch k,
           Step.verifySig k],
         fs := s.fs, i := s.i + 5, level := s.level }, Outcome.panic) := by
  unfold butlerFailB at hg
  simp only [Bool.and_eq_true, beq_iff_eq, Bool.not_eq_true'] at hg
  obtain ⟨⟨⟨⟨⟨⟨⟨⟨⟨h1, h2⟩, h3⟩, h4⟩, h5⟩, h6⟩, h7⟩, h8⟩, h9⟩, h10⟩ := hg
  unfold runPatch
  simp only [h1, h2, h3, h4, h5, h6, h7, h8, h9, h10, Bool.not_true, Bool.not_false,
    Bool.false_eq_true, if_false, if_true, ne_eq, not_true_eq_false, ite_false,
    not_false_eq_true, dropPwr, dropSig, dropWorkdir, fsAdd]
  rw [fsClean3 hclean]
  simp only [patchEvents, List.append_assoc, List.cons_append, List.nil_append,
    Nat.add_assoc, Nat.reduceAdd]

/-- Whatever the oracle does, one loop iteration (a) leaves the
temporary artifact set exactly as it found it -- its guards run on its
exit path -- and (b) appends only events free of the substring
"error". -/
theorem runPatch_master (total k : Nat) (p : PatchInfo) (e : PatchEnv) (s : WState)
    (hclean : cleanFs s.fs) :
    (runPatch total k p e s).1.fs = s.fs ∧
    ∃ Δ, (runPatch total k p e s).1.events = s.events ++ Δ ∧
      ∀ ev ∈ Δ, containsSub ev "error" = false := by
  unfold runPatch
  by_cases h1 : e.createPatchOk = true
  · by_cases h2 : e.dlPatchOk = true
    · by_cases h3 : e.createSigOk = true
      · by_cases h4 : e.dlSigOk = true
        · by_cases h5 : e.readPatchOk = true
          · by_cases hc1 : crc32c e.patchBytes = p.hash
            · by_cases h6 : e.readSigOk = true
              · by_cases hc2 : crc32c e.sigBytes = p.sig_hash
                · by_cases h7 : e.mkWorkdirOk = true
                  · by_cases h8 : e.butlerOk = true
                    · by_cases h9 : e.outUtf8Ok = true
                      · simp only [h1, h2, h3, h4, h5, hc1, h6, hc2, h7, h8, h9,
                          Bool.not_true, Bool.not_false, Bool.false_eq_true,
                          if_true, if_false, ite_true, ite_false, ne_eq,
                          not_true_eq_false, not_false_eq_true, dropPwr, dropSig,
                          dropWorkdir, fsAdd, List.append_assoc, List.cons_append,
                          List.nil_append, fsClean3 hclean]
                        refine ⟨by trivial, _, rfl, ?_⟩
                        intro ev h
                        simp only [List.mem_cons, List.not_mem_nil, or_false] at h
                        rcases h with rfl | rfl | rfl | rfl | rfl
                        exacts [dlMsg_no_error _ _, dlMsg_no_error _ _,
                          cmpMsg_no_error _ _, cmpMsg_no_error _ _,
                          applyMsg_no_error _ _]
                      · rw [Bool.not_eq_true] at h9
                        simp only [h1, h2, h3, h4, h5, hc1, h6, hc2, h7, h8, h9,
                          Bool.not_true, Bool.not_false, Bool.false_eq_true,
                          if_true, if_false, ite_true, ite_false, ne_eq,
                          not_true_eq_false, not_false_eq_true, dropPwr, dropSig,
                          dropWorkdir, fsAdd, List.append_assoc, List.cons_append,
                          List.nil_append, fsClean3 hclean]
                        refine ⟨by trivial, _, rfl, ?_⟩
                        intro ev h
                        simp only [List.mem_cons, List.not_mem_nil, or_false] at h
                        rcases h with rfl | rfl | rfl | rfl | rfl
                        exacts [dlMsg_no_error _ _, dlMsg_no_error _ _,
                          cmpMsg_no_error _ _, cmpMsg_no_error _ _,
                          applyMsg_no_error _ _]
                    · rw [Bool.not_eq_true] at h8
                      simp only [h1, h2, h3, h4, h5, hc1, h6, hc2, h7, h8,
                        Bool.not_true, Bool.not_false, Bool.false_eq_true,
                        if_true, if_false, ite_true, ite_false, ne_eq,
                        not_true_eq_false, not_false_eq_true, dropPwr, dropSig,
                        dropWorkdir, fsAdd, List.append_assoc, List.cons_append,
                        List.nil_append, fsClean3 hclean]
                      refine ⟨by trivial, _, rfl, ?_⟩
                      intro ev h
                      simp only [List.mem_cons, List.not_mem_nil, or_false] at h
                      rcases h with rfl | rfl | rfl | rfl | rfl
                      exacts [dlMsg_no_error _ _, dlMsg_no_error _ _,
                        cmpMsg_no_error _ _, cmpMsg_no_error _ _,
                        applyMsg_no_error _ _]
                  · rw [Bool.not_eq_true] at h7
                    simp only [h1, h2, h3, h4, h5, hc1, h6, hc2, h7,
                      Bool.not_true, Bool.not_false, Bool.false_eq_true,
                      if_true, if_false, ite_true, ite_false, ne_eq,
                      not_true_eq_false, not_false_eq_true, dropPwr, dropSig,
                      dropWorkdir, fsAdd, List.append_assoc, List.cons_append,
                      List.nil_append, fsClean2 hclean]
                    refine ⟨by trivial, _, rfl, ?_⟩
                    intro ev h
                    simp only [List.mem_cons, List.not_mem_nil, or_false] at h
                    rcases h with rfl | rfl | rfl | rfl | rfl
                    exacts [dlMsg_no_error _ _, dlMsg_no_error _ _,
                      cmpMsg_no_error _ _, cmpMsg_no_error _ _,
                      applyMsg_no_error _ _]
                · simp only [h1, h2, h3, h4, h5, hc1, h6, hc2,
                    Bool.not_true, Bool.not_false, Bool.false_eq_true,
                    if_true, if_false, ite_true, ite_false, ne_eq,
                    not_true_eq_false, not_false_eq_true, dropPwr, dropSig,
                    dropWorkdir, fsAdd, List.append_assoc, List.cons_append,
                    List.nil_append, fsClean2 hclean]
                  refine ⟨by trivial, _, rfl, ?_⟩
                  intro ev h
                  simp only [List.mem_cons, List.not_mem_nil, or_false] at h
                  rcases h with rfl | rfl | rfl | rfl | rfl
                  exacts [dlMsg_no_error _ _, dlMsg_no_error _ _,
                    cmpMsg_no_error _ _, cmpMsg_no_error _ _, by decide]
              · rw [Bool.not_eq_true] at h6
                simp only [h1, h2, h3, h4, h5, hc1, h6,
                  Bool.not_true, Bool.not_false, Bool.false_eq_true,
                  if_true, if_false, ite_true, ite_false, ne_eq,
                  not_true_eq_false, not_false_eq_true, dropPwr, dropSig,
                  dropWorkdir, fsAdd, List.append_assoc, List.cons_append,
                  List.nil_append, fsClean2 hclean]
                refine ⟨by trivial, _, rfl, ?_⟩
                intro ev h
                simp only [List.mem_cons, List.not_mem_nil, or_false] at h
                rcases h with rfl | rfl | rfl | rfl
                exacts [dlMsg_no_error _ _, dlMsg_no_error _ _,
                  cmpMsg_no_error _ _, cmpMsg_no_error _ _]
            · simp only [h1, h2, h3, h4, h5, hc1,
                Bool.not_true, Bool.not_false, Bool.false_eq_true,
                if_true, if_false, ite_true, ite_false, ne_eq,
                not_true_eq_false, not_false_eq_true, dropPwr, dropSig,
                dropWorkdir, fsAdd, List.append_assoc, List.cons_append,
                List.nil_append, fsClean2 hclean]
              refine ⟨by trivial, _, rfl, ?_⟩
              intro ev h
              simp only [List.mem_cons, List.not_mem_nil, or_false] at h
              rcases h with rfl | rfl | rfl | rfl
              exacts [dlMsg_no_error _ _, dlMsg_no_error _ _,
                cmpMsg_no_error _ _, by decide]
          · rw [Bool.not_eq_true] at h5
            simp only [h1, h2, h3, h4, h5,
              Bool.not_true, Bool.not_false, Bool.false_eq_true,
              if_true, if_false, ite_true, ite_false, ne_eq,
              not_true_eq_false, not_false_eq_true, dropPwr, dropSig,
              dropWorkdir, fsAdd, List.append_assoc, List.cons_append,
              List.nil_append, fsClean2 hclean]
            refine ⟨by trivial, _, rfl, ?_⟩
            intro ev h
            simp only [List.mem_cons, List.not_mem_nil, or_false] at h
            rcases h with rfl | rfl | rfl
            exacts [dlMsg_no_error _ _, dlMsg_no_error _ _, cmpMsg_no_error _ _]
        · rw [Bool.not_eq_true] at h4
          simp only [h1, h2, h3, h4,
            Bool.not_true, Bool.not_false, Bool.false_eq_true,
            if_true, if_false, ite_true, ite_false, ne_eq,
            not_true_eq_false, not_false_eq_true, dropPwr, dropSig,
            dropWorkdir, fsAdd, List.append_assoc, List.cons_append,
            List.nil_append, fsClean2 hclean]
          refine ⟨by trivial, _, rfl, ?_⟩
          intro ev h
          simp only [List.mem_cons, List.not_mem_nil, or_false] at h
          rcases h with rfl | rfl
          exacts [dlMsg_no_error _ _, dlMsg_no_error _ _]
      · rw [Bool.not_eq_true] at h3
        simp only [h1, h2, h3,
          Bool.not_true, Bool.not_false, Bool.false_eq_true,
          if_true, if_false, ite_true, ite_false, ne_eq,
          not_true_eq_false, not_false_eq_true, dropPwr, dropSig,
          dropWorkdir, fsAdd, List.append_assoc, List.cons_append,
          List.nil_append, fsClean1 hclean]
        refine ⟨by trivial, _, rfl, ?_⟩
        intro ev h
        simp only [List.mem_cons, List.not_mem_nil, or_false] at h
        rcases h with rfl | rfl
        exacts [dlMsg_no_error _ _, dlMsg_no_error _ _]
    · rw [Bool.not_eq_true] at h2
      simp only [h1, h2,
        Bool.not_true, Bool.not_false, Bool.false_eq_true,
        if_true, if_false, ite_true, ite_false, ne_eq,
        not_true_eq_false, not_false_eq_true, dropPwr, dropSig,
        dropWorkdir, fsAdd, List.append_assoc, List.cons_append,
        List.nil_append, fsClean1 hclean]
      refine ⟨by trivial, _, rfl, ?_⟩
      intro ev h
      simp only [List.mem_cons, List.not_mem_nil, or_false] at h
      rcases h with rfl
      exact dlMsg_no_error _ _
  · rw [Bool.not_eq_true] at h1
    simp only [h1,
      Bool.not_true, Bool.not_false, Bool.false_eq_true,
      if_true, if_false, ite_true, ite_false, ne_eq,
      not_true_eq_false, not_false_eq_true, dropPwr, dropSig,
      dropWorkdir, fsAdd, List.append_assoc, List.cons_append,
      List.nil_append]
    refine ⟨by trivial, _, rfl, ?_⟩
    intro ev h
    simp only [List.mem_cons, List.not_mem_nil, or_false] at h
    rcases h with rfl
    exact dlMsg_no_error _ _

theorem runPatch_fs (total k : Nat) (p : PatchInfo) (e : PatchEnv) (s : WState)
    (hclean : cleanFs s.fs) : (runPatch total k p e s).1.fs = s.fs :=
  (runPatch_master total k p e s hclean).1

theorem runPatch_noerr (total k : Nat) (p : PatchInfo) (e : PatchEnv) (s : WState)
    (h : ∀ ev ∈ s.events, containsSub ev "error" = false) (hclean : cleanFs s.fs) :
    ∀ ev ∈ (runPatch total k p e s).1.events, containsSub ev "error" = false := by
  obtain ⟨-, Δ, heq, hΔ⟩ := runPatch_master total k p e s hclean
  intro ev hev
  rw [heq] at hev
  rcases List.mem_append.mp hev with hev | hev
  · exact h ev hev
  · exact hΔ ev hev

/-! ## runLoop characterization -/

theorem runLoop_good_front (total : Nat) :
    ∀ (pre rest : List (PatchInfo × PatchEnv)) (k : Nat) (s : WState),
    (∀ x ∈ pre, goodItemB x = true) → cleanFs s.fs →
    runLoop total k (pre ++ rest) s =
      runLoop total (k + pre.length) rest
        { events := s.events ++ goodEvents total s.i pre,
          trace := s.trace ++ goodTrace k pre,
          fs := s.fs, i := s.i + 5 * pre.length,
          level := levelAfter s.level pre } := by
  intro pre
  induction pre with
  | nil =>
    intro rest k s hg hclean
    simp [goodEvents, goodTrace, levelAfter]
  | cons x pre ih =>
    intro rest k s hg hclean
    rcases x with ⟨p, e⟩
    rw [List.cons_append]
    show runLoop total k ((p, e) :: (pre ++ rest)) s = _
    rw [runLoop, runPatch_good total k p e s (hg _ (List.mem_cons_self _ _)) hclean]
    dsimp only
    rw [ih rest (k + 1)
      { events := s.events ++ patchEvents total s.i,
        trace := s.trace ++ itemTrace k p.id, fs := s.fs, i := s.i + 5,
        level := p.id % 65536 }
      (fun x hx => hg x (List.mem_cons_of_mem _ hx)) hclean]
    simp only [goodEvents, goodTrace, levelAfter, itemTrace, patchEvents,
      List.append_assoc, List.cons_append, List.nil_append, List.length_cons,
      List.foldl_cons]
    congr 1
    · omega
    · congr 1
      omega

theorem runLoop_good (total : Nat) (ps : List (PatchInfo × PatchEnv)) (k : Nat)
    (s : WState) (hg : ∀ x ∈ ps, goodItemB x = true) (hclean : cleanFs s.fs) :
    runLoop total k ps s =
      ({ events := s.events ++ goodEvents total s.i ps,
         trace := s.trace ++ goodTrace k ps,
         fs := s.fs, i := s.i + 5 * ps.length,
         level := levelAfter s.level ps }, Outcome.ok) := by
  have h := runLoop_good_front total ps [] k s hg hclean
  rw [List.append_nil] at h
  rw [h, runLoop]

theorem runLoop_fs (total : Nat) :
    ∀ (ps : List (PatchInfo × PatchEnv)) (k : Nat) (s : WState),
    cleanFs s.fs → (runLoop total k ps s).1.fs = s.fs := by
  intro ps
  induction ps with
  | nil => intro k s hclean; rw [runLoop]
  | cons x ps ih =>
    intro k s hclean
    rcases x with ⟨p, e⟩
    rw [runLoop]
    rcases hr : runPatch total k p e s with ⟨s1, o⟩
    have hfs : s1.fs = s.fs := by
      have := runPatch_fs total k p e s hclean
      rw [hr] at this
      exact this
    have hclean1 : cleanFs s1.fs := by rw [hfs]; exact hclean
    cases o
    · rw [ih (k + 1) s1 hclean1, hfs]
    · exact hfs
    · exact hfs

theorem runLoop_noerr (total : Nat) :
    ∀ (ps : List (PatchInfo × PatchEnv)) (k : Nat) (s : WState),
    (∀ ev ∈ s.events, containsSub ev "error" = false) → cleanFs s.fs →
    ∀ ev ∈ (runLoop total k ps s).1.events, containsSub ev "error" = false := by
  intro ps
  induction ps with
  | nil => intro k s h hclean; rw [runLoop]; exact h
  | cons x ps ih =>
    intro k s h hclean
    rcases x with ⟨p, e⟩
    rw [runLoop]
    rcases hr : runPatch total k p e s with ⟨s1, o⟩
    have h1 : ∀ ev ∈ s1.events, containsSub ev "error" = false := by
      have := runPatch_noerr total k p e s h hclean
      rw [hr] at this
      exact this
    have hfs : s1.fs = s.fs := by
      have := runPatch_fs total k p e s hclean
      rw [hr] at this
      exact this
    have hclean1 : cleanFs s1.fs := by rw [hfs]; exact hclean
    cases o
    · exact ih (k + 1) s1 h1 hclean1
    · exact h1
    · exact h1

/-! ## Trace and level bookkeeping -/

theorem goodTrace_idx : ∀ (ps : List (PatchInfo × PatchEnv)) (k : Nat),
    ∀ st ∈ goodTrace k ps, k ≤ stepIdx st ∧ stepIdx st < k + ps.length := by
  intro ps
  induction ps with
  | nil => intro k st hst; simp [goodTrace] at hst
  | cons x ps ih =>
    intro k st hst
    rw [goodTrace] at hst
    rcases List.mem_append.mp hst with h | h
    · simp only [itemTrace, List.mem_cons, List.not_mem_nil, or_false] at h
      rcases h with rfl | rfl | rfl | rfl | rfl | rfl <;>
        simp [stepIdx, List.length_cons]
    · have := ih (k + 1) st h
      simp only [List.length_cons]
      omega

theorem appliedIds_goodTrace : ∀ (ps : List (PatchInfo × PatchEnv)) (k : Nat),
    appliedIds (goodTrace k ps) = ps.map (fun x => x.1.id) := by
  intro ps
  induction ps with
  | nil => intro k; rfl
  | cons x ps ih =>
    intro k
    rw [goodTrace]
    unfold appliedIds at ih ⊢
    rw [List.filterMap_append, ih (k + 1)]
    rfl

theorem getLastD_default_irrel {l : List Nat} (h : l ≠ []) (d1 d2 : Nat) :
    l.getLastD d1 = l.getLastD d2 := by
  rcases l with _ | ⟨a, l⟩
  · exact absurd rfl h
  · rw [List.getLastD_cons, List.getLastD_cons]

theorem levelAfter_nonempty : ∀ (ps : List (PatchInfo × PatchEnv)) (lv : Nat),
    ps ≠ [] → levelAfter lv ps = lastId ps % 65536 := by
  intro ps
  induction ps with
  | nil => intro lv h; exact absurd rfl h
  | cons x ps ih =>
    intro lv _
    have hlhs : levelAfter lv (x :: ps) = levelAfter (x.1.id % 65536) ps := rfl
    have hrhs : lastId (x :: ps) = (ps.map (fun y => y.1.id)).getLastD x.1.id := by
      unfold lastId
      rw [List.map_cons, List.getLastD_cons]
    rcases hps : ps with _ | ⟨y, ps2⟩
    · rfl
    · rw [← hps]
      have hne : ps ≠ [] := by rw [hps]; simp
      have hmapne : ps.map (fun y => y.1.id) ≠ [] := by
        rw [hps]; simp
      rw [hlhs, ih _ hne, hrhs, getLastD_default_irrel hmapne x.1.id 0]
      rfl

/-- A loop whose first `pre` iterations succeed and whose next patch
fails a checksum comparison returns early: the trace extends that of
`pre` only by steps of the failing patch, none of which is an apply or
an advance, and the level stays at the level after `pre`. -/
theorem runLoop_bad (total : Nat) (pre post : List (PatchInfo × PatchEnv))
    (bad : PatchInfo × PatchEnv) (k : Nat) (s : WState)
    (hpre : ∀ x ∈ pre, goodItemB x = true)
    (hbad : badPatchHashB bad = true ∨ badSigHashB bad = true)
    (hclean : cleanFs s.fs) :
    ∃ (Δe : List String) (tr2 : List Step) (i2 : Nat),
      runLoop total k (pre ++ bad :: post) s =
        ({ events := s.events ++ Δe,
           trace := s.trace ++ (goodTrace k pre ++ tr2),
           fs := s.fs, i := i2, level := levelAfter s.level pre }, Outcome.ret) ∧
      (∀ st ∈ tr2, stepIdx st = k + pre.length) ∧
      (∀ pid, Step.applyPatch (k + pre.length) pid ∉ tr2) ∧
      (∀ pid, Step.advance (k + pre.length) pid ∉ tr2) := by
  rw [runLoop_good_front total pre (bad :: post) k s hpre hclean]
  rcases bad with ⟨p, e⟩
  rw [runLoop]
  rcases hbad with hbad | hbad
  · rw [runPatch_badPatchHash total (k + pre.length) p e
      { events := s.events ++ goodEvents total s.i pre,
        trace := s.trace ++ goodTrace k pre, fs := s.fs,
        i := s.i + 5 * pre.length, level := levelAfter s.level pre } hbad hclean]
    dsimp only
    refine ⟨goodEvents total s.i pre ++ [dlMsg (s.i + 5 * pre.length + 1) total,
        dlMsg (s.i + 5 * pre.length + 2) total, cmpMsg (s.i + 5 * pre.length + 3) total,
        patchCrcMsg],
      [Step.dlPatch (k + pre.length), Step.dlSig (k + pre.length),
        Step.verifyPatch (k + pre.length)],
      s.i + 5 * pre.length + 3, ?_, ?_, ?_, ?_⟩
    · simp [List.append_assoc]
    · intro st hst
      simp only [List.mem_cons, List.not_mem_nil, or_false] at hst
      rcases hst with rfl | rfl | rfl <;> rfl
    · intro pid hmem
      simp at hmem
    · intro pid hmem
      simp at hmem
  · rw [runPatch_badSigHash total (k + pre.length) p e
      { events := s.events ++ goodEvents total s.i pre,
        trace := s.trace ++ goodTrace k pre, fs := s.fs,
        i := s.i + 5 * pre.length, level := levelAfter s.level pre } hbad hclean]
    dsimp only
    refine ⟨goodEvents total s.i pre ++ [dlMsg (s.i + 5 * pre.length + 1) total,
        dlMsg (s.i + 5 * pre.length + 2) total, cmpMsg (s.i + 5 * pre.length + 3) total,
        cmpMsg (s.i + 5 * pre.length + 4) total, sigCrcMsg],
      [Step.dlPatch (k + pre.length), Step.dlSig (k + pre.length),
        Step.verifyPatch (k + pre.length), Step.verifySig (k + pre.length)],
      s.i + 5 * pre.length + 4, ?_, ?_, ?_, ?_⟩
    · simp [List.append_assoc]
    · intro st hst
      simp only [List.mem_cons, List.not_mem_nil, or_false] at hst
      rcases hst with rfl | rfl | rfl | rfl <;> rfl
    · intro pid hmem
      simp at hmem
    · intro pid hmem
      simp at hmem

/-- Same shape for a run whose next patch passes both checksums but
whose butler subprocess cannot be run: the loop panics, no apply or
advance step of the failing patch is recorded. -/
theorem runLoop_butler (total : Nat) (pre post : List (PatchInfo × PatchEnv))
    (bad : PatchInfo × PatchEnv) (k : Nat) (s : WState)
    (hpre : ∀ x ∈ pre, goodItemB x = true)
    (hbad : butlerFailB bad = true)
    (hclean : cleanFs s.fs) :
    ∃ (Δe : List String) (tr2 : List Step) (i2 : Nat),
      runLoop total k (pre ++ bad :: post) s =
        ({ events := s.events ++ Δe,
           trace := s.trace ++ (goodTrace k pre ++ tr2),
           fs := s.fs, i := i2, level := levelAfter s.level pre }, Outcome.panic) ∧
      (∀ st ∈ tr2, stepIdx st = k + pre.length) ∧
      (∀ pid, Step.applyPatch (k + pre.length) pid ∉ tr2) ∧
      (∀ pid, Step.advance (k + pre.length) pid ∉ tr2) := by
  rw [runLoop_good_front total pre (bad :: post) k s hpre hclean]
  rcases bad with ⟨p, e⟩
  rw [runLoop]
  rw [runPatch_butlerFail total (k + pre.length) p e
    { events := s.events ++ goodEvents total s.i pre,
      trace := s.trace ++ goodTrace k pre, fs := s.fs,
      i := s.i + 5 * pre.length, level := levelAfter s.level pre } hbad hclean]
  dsimp only
  refine ⟨goodEvents total s.i pre ++ patchEvents total (s.i + 5 * pre.length),
    [Step.dlPatch (k + pre.length), Step.dlSig (k + pre.length),
      Step.verifyPatch (k + pre.length), Step.verifySig (k + pre.length)],
    s.i + 5 * pre.length + 5, ?_, ?_, ?_, ?_⟩
  · simp [List.append_assoc]
  · intro st hst
    simp only [List.mem_cons, List.not_mem_nil, or_false] at hst
    rcases hst with rfl | rfl | rfl | rfl <;> rfl
  · intro pid hmem
    simp at hmem
  · intro pid hmem
    simp at hmem

/-- Exit codes reported by the butler oracle are never examined. -/
theorem runLoop_scrub (total : Nat) :
    ∀ (ps : List (PatchInfo × PatchEnv)) (k : Nat) (s : WState),
    runLoop total k (ps.map (fun x => (x.1, scrubPE x.2))) s = runLoop total k ps s := by
  intro ps
  induction ps with
  | nil => intro k s; rfl
  | cons x ps ih =>
    intro k s
    rcases x with ⟨p, e⟩
    rw [List.map_cons]
    rw [runLoop, runLoop]
    have hpe : runPatch total k p (scrubPE e) s = runPatch total k p e s := rfl
    rw [hpe]
    rcases runPatch total k p e s with ⟨s1, o⟩
    cases o <;> simp only [ih]

/-! ## Worker events vs the consumer error flag -/

theorem noerr_errOccurred {evs : List String}
    (h : ∀ ev ∈ evs, containsSub ev "error" = false) :
    errOccurred evs = false := by
  rw [errOccurred_eq_any]
  rw [List.any_eq_false]
  intro ev hev
  rw [h ev hev]
  simp

theorem errOccurred_unwind {evs : List String} :
    errOccurred (evs ++ [unwindMsg]) = true := by
  rw [errOccurred_eq_any, List.any_append]
  have : [unwindMsg].any (fun ev => containsSub ev "error") = true := by decide
  rw [this, Bool.or_true]

theorem initState_noerr (env : RunEnv) (fs0 : List String) :
    ∀ ev ∈ (initState env fs0).events, containsSub ev "error" = false := by
  intro ev hev
  simp only [initState, List.mem_singleton] at hev
  subst hev
  decide

/-- C10 core: after draining the whole event stream, the consumer's
error flag equals "the worker panicked"; a worker that returned early
(catalog failure or checksum mismatch) leaves the flag false. -/
theorem errOccurred_eq_panicked (env : RunEnv) (fs0 : List String)
    (hclean : cleanFs fs0) :
    errOccurred (workerRun env fs0).events = (workerRun env fs0).panicked := by
  unfold workerRun
  by_cases h1 : env.catalogSendOk = true
  · by_cases h2 : env.statusOk = true
    · by_cases h3 : env.decodeOk = true
      · simp only [h1, h2, h3, Bool.not_true, Bool.false_eq_true, if_false, ite_false]
        rcases hr : runLoop (env.patches.length * 5) 0 env.patches (initState env fs0)
          with ⟨s, o⟩
        have hs : ∀ ev ∈ s.events, containsSub ev "error" = false := by
          have hres := runLoop_noerr (env.patches.length * 5) env.patches 0
            (initState env fs0) (initState_noerr env fs0) hclean
          rw [hr] at hres
          exact hres
        cases o
        · -- Outcome.ok
          dsimp only
          have hok : ∀ ev ∈ s.events ++ [allokMsg], containsSub ev "error" = false := by
            intro ev hev
            rcases List.mem_append.mp hev with hev | hev
            · exact hs ev hev
            · simp only [List.mem_singleton] at hev
              subst hev
              decide
          by_cases h4 : env.projDirsSome = true
          · by_cases h5 : env.persistOk = true
            · simp only [h4, h5, if_true, ite_true]
              exact noerr_errOccurred hok
            · rw [Bool.not_eq_true] at h5
              simp only [h4, h5, if_true, ite_true, Bool.false_eq_true, if_false,
                ite_false]
              exact errOccurred_unwind
          · rw [Bool.not_eq_true] at h4
            simp only [h4, Bool.false_eq_true, if_false, ite_false]
            exact noerr_errOccurred hok
        · -- Outcome.ret
          dsimp only
          exact noerr_errOccurred hs
        · -- Outcome.panic
          dsimp only
          exact errOccurred_unwind
      · rw [Bool.not_eq_true] at h3
        simp only [h1, h2, h3, Bool.not_true, Bool.not_false, Bool.false_eq_true,
          if_true, if_false, ite_true, ite_false]
        simp only [initState]
        decide
    · rw [Bool.not_eq_true] at h2
      simp only [h1, h2, Bool.not_true, Bool.not_false, Bool.false_eq_true,
        if_true, if_false, ite_true, ite_false]
      simp only [initState]
      decide
  · rw [Bool.not_eq_true] at h1
    simp only [h1, Bool.not_true, Bool.not_false, Bool.false_eq_true,
      if_true, if_false, ite_true, ite_false]
    simp only [initState]
    decide

/-! ## workerRun on fully successful runs -/

theorem workerRun_good (env : RunEnv) (fs0 : List String)
    (h1 : env.catalogSendOk = true) (h2 : env.statusOk = true)
    (h3 : env.decodeOk = true) (h4 : env.projDirsSome = true)
    (h5 : env.persistOk = true)
    (hg : ∀ x ∈ env.patches, goodItemB x = true) (hclean : cleanFs fs0) :
    workerRun env fs0 =
      { events := contactMsg ::
          (goodEvents (env.patches.length * 5) 0 env.patches ++ [allokMsg]),
        trace := goodTrace 0 env.patches,
        fs := fs0,
        counter := 5 * env.patches.length,
        level := levelAfter env.entry0.patch env.patches,
        inserted := true, writeAttempts := 1,
        disk := DiskManifest.intact (upsert env.games0 gameName
          { dir := env.entry0.dir,
            patch := levelAfter env.entry0.patch env.patches }),
        panicked := false } := by
  unfold workerRun
  simp only [h1, h2, h3, Bool.not_true, Bool.false_eq_true, if_false, ite_false]
  rw [runLoop_good (env.patches.length * 5) env.patches 0 (initState env fs0) hg hclean]
  dsimp only
  simp only [h4, h5, if_true, ite_true, initState, List.nil_append, List.singleton_append,
    List.cons_append, Nat.zero_add]

theorem workerRun_good_trace (env : RunEnv) (fs0 : List String)
    (h1 : env.catalogSendOk = true) (h2 : env.statusOk = true)
    (h3 : env.decodeOk = true)
    (hg : ∀ x ∈ env.patches, goodItemB x = true) (hclean : cleanFs fs0) :
    (workerRun env fs0).trace = goodTrace 0 env.patches ∧
    (workerRun env fs0).counter = 5 * env.patches.length ∧
    (workerRun env fs0).level = levelAfter env.entry0.patch env.patches := by
  unfold workerRun
  simp only [h1, h2, h3, Bool.not_true, Bool.false_eq_true, if_false, ite_false]
  rw [runLoop_good (env.patches.length * 5) env.patches 0 (initState env fs0) hg hclean]
  dsimp only
  by_cases h4 : env.projDirsSome = true
  · by_cases h5 : env.persistOk = true
    · simp only [h4, h5, if_true, ite_true, initState, List.nil_append, Nat.zero_add]
      refine ⟨?_, ?_, ?_⟩ <;> first | rfl | trivial
    · rw [Bool.not_eq_true] at h5
      simp only [h4, h5, if_true, ite_true, Bool.false_eq_true, if_false, ite_false,
        initState, List.nil_append, Nat.zero_add]
      refine ⟨?_, ?_, ?_⟩ <;> first | rfl | trivial
  · rw [Bool.not_eq_true] at h4
    simp only [h4, Bool.false_eq_true, if_false, ite_false, initState,
      List.nil_append, Nat.zero_add]
    refine ⟨?_, ?_, ?_⟩ <;> first | rfl | trivial

/-! ## Claim theorems -/

/-- C1 counterexample: a run in which the butler subprocess runs and
exits with non-zero status 1 is treated as fully successful by the
code: no error event is surfaced (the consumer launches and exits 0),
`entry.patch` is advanced to the patch's id, and the manifest is
persisted.  `Command::output()` succeeding is all the source checks;
`cmd_output.status` is never read. -/
theorem claim1_cex :
    cexApplyEnv.patches.head? = some (mkPatch 7, { okPE with exitCode := 1 }) ∧
    ({ okPE with exitCode := 1 } : PatchEnv).exitCode = 1 ∧
    (workerRun cexApplyEnv []).panicked = false ∧
    errOccurred (workerRun cexApplyEnv []).events = false ∧
    exitCode (workerRun cexApplyEnv []).events = 0 ∧
    launches (workerRun cexApplyEnv []).events = true ∧
    (workerRun cexApplyEnv []).level = 7 ∧
    Step.advance 0 7 ∈ (workerRun cexApplyEnv []).trace ∧
    (workerRun cexApplyEnv []).writeAttempts = 1 := by decide

/-- C1 amended: (1) the run result is independent of the butler
subprocess's exit status, which the source never examines -- a non-zero
exit neither fails the run nor blocks the patch-level advance; (2) only
a failure to run the subprocess at all (`Command::output()` returning
`Err`) aborts the run: the worker panics, the unwind guard surfaces
`"An error has occured."` as the final event, and `entry.patch` is not
advanced for that patch, nor is the manifest persisted. -/
theorem claim1_theorem :
    (∀ (env : RunEnv) (fs0 : List String),
      workerRun (scrubExit env) fs0 = workerRun env fs0) ∧
    (∀ (env : RunEnv) (fs0 : List String)
      (pre post : List (PatchInfo × PatchEnv)) (bad : PatchInfo × PatchEnv),
      env.patches = pre ++ bad :: post →
      env.catalogSendOk = true → env.statusOk = true → env.decodeOk = true →
      (∀ x ∈ pre, goodItemB x = true) → butlerFailB bad = true → cleanFs fs0 →
      (workerRun env fs0).panicked = true ∧
      (workerRun env fs0).events.getLast? = some unwindMsg ∧
      (workerRun env fs0).level = levelAfter env.entry0.patch pre ∧
      (∀ pid, Step.advance pre.length pid ∉ (workerRun env fs0).trace) ∧
      (∀ pid, Step.applyPatch pre.length pid ∉ (workerRun env fs0).trace) ∧
      (workerRun env fs0).writeAttempts = 0) := by
  constructor
  · intro env fs0
    unfold workerRun
    simp only [scrubExit, initState, List.length_map, runLoop_scrub]
  · intro env fs0 pre post bad hps h1 h2 h3 hpre hbad hclean
    unfold workerRun
    simp only [h1, h2, h3, Bool.not_true, Bool.false_eq_true, if_false, ite_false]
    rw [hps]
    obtain ⟨Δe, tr2, i2, heq, htr2, happly, hadv⟩ :=
      runLoop_butler ((pre ++ bad :: post).length * 5) pre post bad 0
        (initState env fs0) hpre hbad hclean
    rw [heq]
    dsimp only
    simp only [initState, List.nil_append]
    refine ⟨by trivial, ?_, by trivial, ?_, ?_, by trivial⟩
    · exact List.getLast?_concat _
    · intro pid hmem
      rcases List.mem_append.mp hmem with h | h
      · have := (goodTrace_idx pre 0 _ h).2
        simp only [stepIdx] at this
        omega
      · exact hadv pid (by simpa using h)
    · intro pid hmem
      rcases List.mem_append.mp hmem with h | h
      · have := (goodTrace_idx pre 0 _ h).2
        simp only [stepIdx] at this
        omega
      · exact happly pid (by simpa using h)

/-- C1 witness: exit-status independence applied at a concrete run, and
the spawn-failure case at a one-patch run. -/
theorem claim1_witness :
    workerRun (scrubExit goodEnv1) [] = workerRun goodEnv1 [] ∧
    (workerRun wbutlerEnv []).panicked = true ∧
    (workerRun wbutlerEnv []).events.getLast? = some unwindMsg ∧
    Step.advance 0 7 ∉ (workerRun wbutlerEnv []).trace ∧
    (workerRun wbutlerEnv []).writeAttempts = 0 := by
  have h2 := claim1_theorem.2 wbutlerEnv [] [] []
    (mkPatch 7, { okPE with butlerOk := false })
    rfl rfl rfl rfl (by decide) (by decide) cleanFs_nil
  exact ⟨claim1_theorem.1 goodEnv1 [], h2.1, h2.2.1, h2.2.2.2.1 7, h2.2.2.2.2.2⟩

/-- C2: at a concrete run whose patch fails its CRC32C check, the
failure message is sent on the channel, but -- since it does not
contain the lowercase substring "error" -- the consumer's flag stays
false: the worker returns early, the channel disconnects, and the
consumer proceeds to launch the application and exit with status 0.
The error dialog (reachable only with the flag set) names exactly this
checksum situation as its cause, so the code contradicts its own
intent: the claim describes that intent and the code fails it. -/
theorem claim2_theorem :
    (workerRun cexChecksumEnv []).panicked = false ∧
    patchCrcMsg ∈ (workerRun cexChecksumEnv []).events ∧
    errOccurred (workerRun cexChecksumEnv []).events = false ∧
    exitCode (workerRun cexChecksumEnv []).events = 0 ∧
    launches (workerRun cexChecksumEnv []).events = true ∧
    (workerRun cexChecksumEnv []).writeAttempts = 0 ∧
    containsSub serverErrMsg "error" = false := by decide

/-- C3 counterexample: on a fully successful one-patch run, the
signature download (`Step.dlSig`) happens before the patch checksum
comparison (`Step.verifyPatch`): the claimed order
download → verify → download-sig → verify-sig → apply is not the
code's order. -/
theorem claim3_cex :
    (workerRun goodEnv1 []).trace =
      [Step.dlPatch 0, Step.dlSig 0, Step.verifyPatch 0, Step.verifySig 0,
       Step.applyPatch 0 7, Step.advance 0 7] ∧
    (workerRun goodEnv1 []).trace.indexOf (Step.dlSig 0) <
      (workerRun goodEnv1 []).trace.indexOf (Step.verifyPatch 0) ∧
    (workerRun goodEnv1 []).panicked = false := by decide

/-- C3 amended: for every patch, the sub-steps run in the order
download patch → download signature → verify patch checksum → verify
signature checksum → apply; only then is the patch level advanced. -/
theorem claim3_theorem (env : RunEnv) (fs0 : List String)
    (h1 : env.catalogSendOk = true) (h2 : env.statusOk = true)
    (h3 : env.decodeOk = true)
    (hg : ∀ x ∈ env.patches, goodItemB x = true) (hclean : cleanFs fs0) :
    (workerRun env fs0).trace = goodTrace 0 env.patches :=
  (workerRun_good_trace env fs0 h1 h2 h3 hg hclean).1

theorem claim3_witness :
    cleanFs ([] : List String) ∧
    (workerRun goodEnv1 []).trace = goodTrace 0 goodEnv1.patches :=
  ⟨cleanFs_nil, claim3_theorem goodEnv1 [] rfl rfl rfl (by decide) cleanFs_nil⟩

/-- C4 counterexample: with a single patch of identifier 70000, the
persisted patch level is `70000 as u16 = 4464`, not the 64-bit
identifier of the last applied descriptor. -/
theorem claim4_cex :
    lastId cexTruncEnv.patches = 70000 ∧
    (workerRun cexTruncEnv []).panicked = false ∧
    (workerRun cexTruncEnv []).disk =
      DiskManifest.intact [(gameName, { dir := "D:/usc", patch := 4464 })] ∧
    (4464 : Nat) ≠ 70000 := by decide

/-- C4 amended: on a fully successful run over a non-empty list, the
persisted patch level is the identifier of the last applied descriptor
reduced mod 2^16 (`patch.id as u16`; equal to the identifier whenever
it fits in 16 bits), and the descriptors are applied in catalog order
with no reordering. -/
theorem claim4_theorem (env : RunEnv) (fs0 : List String)
    (h1 : env.catalogSendOk = true) (h2 : env.statusOk = true)
    (h3 : env.decodeOk = true) (h4 : env.projDirsSome = true)
    (h5 : env.persistOk = true)
    (hg : ∀ x ∈ env.patches, goodItemB x = true) (hclean : cleanFs fs0)
    (hne : env.patches ≠ []) :
    (workerRun env fs0).disk = DiskManifest.intact (upsert env.games0 gameName
      { dir := env.entry0.dir, patch := lastId env.patches % 65536 }) ∧
    appliedIds (workerRun env fs0).trace = env.patches.map (fun x => x.1.id) := by
  rw [workerRun_good env fs0 h1 h2 h3 h4 h5 hg hclean]
  constructor
  · dsimp only
    rw [levelAfter_nonempty env.patches env.entry0.patch hne]
  · exact appliedIds_goodTrace env.patches 0

theorem claim4_witness :
    cleanFs ([] : List String) ∧
    (workerRun cexTruncEnv []).disk =
      DiskManifest.intact (upsert cexTruncEnv.games0 gameName
        { dir := cexTruncEnv.entry0.dir, patch := lastId cexTruncEnv.patches % 65536 }) :=
  ⟨cleanFs_nil,
    (claim4_theorem cexTruncEnv [] rfl rfl rfl rfl rfl (by decide) cleanFs_nil
      (by decide)).1⟩

/-- C5: if the first failing patch fails its patch or signature CRC32C
comparison (all prior patches fully succeeding), the worker returns at
exactly that patch: no apply step occurs for it, no step of any later
patch occurs, the in-memory level remains the level after the last
fully applied patch, and nothing is written to the manifest. -/
theorem claim5_theorem (env : RunEnv) (fs0 : List String)
    (pre post : List (PatchInfo × PatchEnv)) (bad : PatchInfo × PatchEnv)
    (hps : env.patches = pre ++ bad :: post)
    (h1 : env.catalogSendOk = true) (h2 : env.statusOk = true)
    (h3 : env.decodeOk = true)
    (hpre : ∀ x ∈ pre, goodItemB x = true)
    (hbad : badPatchHashB bad = true ∨ badSigHashB bad = true)
    (hclean : cleanFs fs0) :
    (workerRun env fs0).panicked = false ∧
    (∀ pid, Step.applyPatch pre.length pid ∉ (workerRun env fs0).trace) ∧
    (∀ st ∈ (workerRun env fs0).trace, stepIdx st ≤ pre.length) ∧
    (workerRun env fs0).level = levelAfter env.entry0.patch pre ∧
    (workerRun env fs0).writeAttempts = 0 ∧
    (workerRun env fs0).disk = env.diskInit := by
  unfold workerRun
  simp only [h1, h2, h3, Bool.not_true, Bool.false_eq_true, if_false, ite_false]
  rw [hps]
  obtain ⟨Δe, tr2, i2, heq, htr2, happly, hadv⟩ :=
    runLoop_bad ((pre ++ bad :: post).length * 5) pre post bad 0
      (initState env fs0) hpre hbad hclean
  rw [heq]
  dsimp only
  simp only [initState, List.nil_append]
  refine ⟨by trivial, ?_, ?_, by trivial, by trivial, by trivial⟩
  · intro pid hmem
    rcases List.mem_append.mp hmem with h | h
    · have := (goodTrace_idx pre 0 _ h).2
      simp only [stepIdx] at this
      omega
    · exact happly pid (by simpa using h)
  · intro st hmem
    rcases List.mem_append.mp hmem with h | h
    · have := (goodTrace_idx pre 0 _ h).2
      omega
    · have := htr2 st h
      omega

theorem claim5_witness :
    cleanFs ([] : List String) ∧
    (workerRun wchecksum3Env []).panicked = false ∧
    Step.applyPatch 1 6 ∉ (workerRun wchecksum3Env []).trace ∧
    (workerRun wchecksum3Env []).writeAttempts = 0 := by
  have h := claim5_theorem wchecksum3Env [] [(mkPatch 5, okPE)]
    [(mkPatch 9, okPE)] ({ mkPatch 6 with hash := 1 }, okPE) rfl rfl rfl rfl
    (by decide) (Or.inl (by decide)) cleanFs_nil
  exact ⟨cleanFs_nil, h.1, h.2.1 6, h.2.2.2.2.1⟩

/-- C6 counterexample: a run that fails by a worker panic during the
persist write itself leaves the manifest file changed (truncated /
half-written), not unchanged: `fs::write` and
`File::create` + `write_all` truncate before writing, with no atomic
rename. -/
theorem claim6_cex :
    (workerRun cexPersistEnv []).panicked = true ∧
    (workerRun cexPersistEnv []).disk = DiskManifest.halfWritten ∧
    cexPersistEnv.diskInit = DiskManifest.intact [] ∧
    (workerRun cexPersistEnv []).disk ≠ cexPersistEnv.diskInit := by decide

/-- C6 amended: the manifest is written at most once per run, and only
after the per-patch loop has completed without a failure return; on
every run that fails before the persist write begins, the manifest
file on disk is unchanged; the entry is re-inserted into the in-memory
manifest only when the loop succeeded.  (A failure during the persist
write itself can leave a half-written file.) -/
theorem claim6_theorem (env : RunEnv) (fs0 : List String) :
    (workerRun env fs0).writeAttempts ≤ 1 ∧
    ((workerRun env fs0).writeAttempts = 0 →
      (workerRun env fs0).disk = env.diskInit) ∧
    ((workerRun env fs0).writeAttempts = 1 →
      (workerRun env fs0).inserted = true ∧ (loopOut env fs0).2 = Outcome.ok ∧
      env.projDirsSome = true) ∧
    ((workerRun env fs0).inserted = true →
      env.catalogSendOk = true ∧ env.statusOk = true ∧ env.decodeOk = true ∧
      (loopOut env fs0).2 = Outcome.ok) := by
  unfold workerRun
  by_cases h1 : env.catalogSendOk = true
  · by_cases h2 : env.statusOk = true
    · by_cases h3 : env.decodeOk = true
      · simp only [h1, h2, h3, Bool.not_true, Bool.false_eq_true, if_false, ite_false]
        rcases hr : runLoop (env.patches.length * 5) 0 env.patches (initState env fs0)
          with ⟨s, o⟩
        have hout : (loopOut env fs0).2 = o := by
          unfold loopOut
          rw [hr]
        cases o
        · dsimp only
          by_cases h4 : env.projDirsSome = true
          · by_cases h5 : env.persistOk = true
            · simp only [h4, h5, if_true, ite_true]
              exact ⟨by omega, fun h => absurd h (by decide),
                fun _ => ⟨by trivial, hout, by trivial⟩, fun _ => ⟨by trivial, by trivial, by trivial, hout⟩⟩
            · rw [Bool.not_eq_true] at h5
              simp only [h4, h5, if_true, ite_true, Bool.false_eq_true, if_false,
                ite_false]
              exact ⟨by omega, fun h => absurd h (by decide),
                fun _ => ⟨by trivial, hout, by trivial⟩, fun _ => ⟨by trivial, by trivial, by trivial, hout⟩⟩
          · rw [Bool.not_eq_true] at h4
            simp only [h4, Bool.false_eq_true, if_false, ite_false]
            exact ⟨by omega, fun _ => by trivial, fun h => absurd h (by decide),
              fun _ => ⟨by trivial, by trivial, by trivial, hout⟩⟩
        · dsimp only
          exact ⟨by omega, fun _ => by trivial, fun h => absurd h (by decide),
            fun h => absurd h (by decide)⟩
        · dsimp only
          exact ⟨by omega, fun _ => by trivial, fun h => absurd h (by decide),
            fun h => absurd h (by decide)⟩
      · rw [Bool.not_eq_true] at h3
        simp only [h1, h2, h3, Bool.not_true, Bool.not_false, Bool.false_eq_true,
          if_true, if_false, ite_true, ite_false]
        exact ⟨by omega, fun _ => by trivial, fun h => absurd h (by decide),
          fun h => absurd h (by decide)⟩
    · rw [Bool.not_eq_true] at h2
      simp only [h1, h2, Bool.not_true, Bool.not_false, Bool.false_eq_true,
        if_true, if_false, ite_true, ite_false]
      exact ⟨by omega, fun _ => by trivial, fun h => absurd h (by decide),
        fun h => absurd h (by decide)⟩
  · rw [Bool.not_eq_true] at h1
    simp only [h1, Bool.not_true, Bool.not_false, Bool.false_eq_true,
      if_true, if_false, ite_true, ite_false]
    exact ⟨by omega, fun _ => by trivial, fun h => absurd h (by decide),
      fun h => absurd h (by decide)⟩

theorem claim6_witness :
    (workerRun (baseEnv []) []).writeAttempts ≤ 1 ∧
    (workerRun cexChecksumEnv []).writeAttempts = 0 ∧
    (workerRun cexChecksumEnv []).disk = cexChecksumEnv.diskInit :=
  ⟨(claim6_theorem (baseEnv []) []).1, by decide,
    (claim6_theorem cexChecksumEnv []).2.1 (by decide)⟩

/-- C7: on a fully successful run, there are exactly `len(patches) * 5`
progress increments: the event stream is the contact message, then the
five numbered step messages per patch with the counter ascending from
1 to `5 * len` over the precomputed total, then the success sentinel;
the final counter value is exactly `len(patches) * 5`. -/
theorem claim7_theorem (env : RunEnv) (fs0 : List String)
    (h1 : env.catalogSendOk = true) (h2 : env.statusOk = true)
    (h3 : env.decodeOk = true) (h4 : env.projDirsSome = true)
    (h5 : env.persistOk = true)
    (hg : ∀ x ∈ env.patches, goodItemB x = true) (hclean : cleanFs fs0) :
    (workerRun env fs0).counter = env.patches.length * 5 ∧
    (workerRun env fs0).events =
      contactMsg :: (goodEvents (env.patches.length * 5) 0 env.patches ++ [allokMsg]) := by
  rw [workerRun_good env fs0 h1 h2 h3 h4 h5 hg hclean]
  exact ⟨Nat.mul_comm 5 env.patches.length, rfl⟩

theorem claim7_witness :
    cleanFs ([] : List String) ∧
    (workerRun wchecksum2good []).counter = wchecksum2good.patches.length * 5 :=
  ⟨cleanFs_nil, (claim7_theorem wchecksum2good [] rfl rfl rfl rfl rfl (by decide)
    cleanFs_nil).1⟩

/-- C8: whatever the oracle decides at every fallible call (success,
early checksum return, spawn failure and unwind), a run started with
none of the three temporary artifacts present ends with none of them
present: every scoped `defer!` cleanup runs on every exit path of its
owning step. -/
theorem claim8_theorem (env : RunEnv) (fs0 : List String)
    (hclean : cleanFs fs0) : cleanFs (workerRun env fs0).fs := by
  unfold workerRun
  by_cases h1 : env.catalogSendOk = true
  · by_cases h2 : env.statusOk = true
    · by_cases h3 : env.decodeOk = true
      · simp only [h1, h2, h3, Bool.not_true, Bool.false_eq_true, if_false, ite_false]
        rcases hr : runLoop (env.patches.length * 5) 0 env.patches (initState env fs0)
          with ⟨s, o⟩
        have hfs : s.fs = fs0 := by
          have h := runLoop_fs (env.patches.length * 5) env.patches 0
            (initState env fs0) hclean
          rw [hr] at h
          exact h
        cases o
        · dsimp only
          by_cases h4 : env.projDirsSome = true
          · by_cases h5 : env.persistOk = true
            · simp only [h4, h5, if_true, ite_true]
              rw [hfs]; exact hclean
            · rw [Bool.not_eq_true] at h5
              simp only [h4, h5, if_true, ite_true, Bool.false_eq_true, if_false,
                ite_false]
              rw [hfs]; exact hclean
          · rw [Bool.not_eq_true] at h4
            simp only [h4, Bool.false_eq_true, if_false, ite_false]
            rw [hfs]; exact hclean
        · dsimp only
          rw [hfs]; exact hclean
        · dsimp only
          rw [hfs]; exact hclean
      · rw [Bool.not_eq_true] at h3
        simp only [h1, h2, h3, Bool.not_true, Bool.not_false, Bool.false_eq_true,
          if_true, if_false, ite_true, ite_false]
        exact hclean
    · rw [Bool.not_eq_true] at h2
      simp only [h1, h2, Bool.not_true, Bool.not_false, Bool.false_eq_true,
        if_true, if_false, ite_true, ite_false]
      exact hclean
  · rw [Bool.not_eq_true] at h1
    simp only [h1, Bool.not_true, Bool.not_false, Bool.false_eq_true,
      if_true, if_false, ite_true, ite_false]
    exact hclean

theorem claim8_witness :
    cleanFs ([] : List String) ∧ cleanFs (workerRun wchecksum3Env []).fs :=
  ⟨cleanFs_nil, claim8_theorem wchecksum3Env [] cleanFs_nil⟩

/-- C10: the consumer's `err_occurred` flag after the channel drains
and disconnects equals "the worker panicked": only the unwind-guard
message contains the lowercase substring "error"; a worker that
returned early (catalog failure, checksum mismatch) leaves the flag
false, so the consumer takes the launch branch and exits 0, and a
panicked worker makes it exit 3. -/
theorem claim10_theorem (env : RunEnv) (fs0 : List String)
    (hclean : cleanFs fs0) :
    errOccurred (workerRun env fs0).events = (workerRun env fs0).panicked ∧
    exitCode (workerRun env fs0).events =
      (if (workerRun env fs0).panicked = true then 3 else 0) ∧
    launches (workerRun env fs0).events = !(workerRun env fs0).panicked := by
  have h := errOccurred_eq_panicked env fs0 hclean
  refine ⟨h, ?_, ?_⟩
  · unfold exitCode
    rw [h]
  · unfold launches
    rw [h]

theorem claim10_witness :
    cleanFs ([] : List String) ∧
    errOccurred (workerRun cexChecksumEnv []).events =
      (workerRun cexChecksumEnv []).panicked :=
  ⟨cleanFs_nil, (claim10_theorem cexChecksumEnv [] cleanFs_nil).1⟩

/-! ## Manifest round trip: parser inverts printer -/

theorem parseLit_pref (lit r : List Char) : parseLit lit (lit ++ r) = some r := by
  unfold parseLit
  rw [if_pos (List.isPrefixOf_iff_prefix.mpr ⟨r, rfl⟩), List.drop_left]

theorem parseQuoted_escape : ∀ (s : List Char) (rest : List Char),
    parseQuoted (escape s ++ '"' :: rest) = some (s, rest) := by
  intro s
  induction s with
  | nil =>
    intro rest
    have h : escape [] = [] := rfl
    rw [h, List.nil_append]
    rw [parseQuoted.eq_def]
    dsimp only
    rw [if_pos rfl]
  | cons c s ih =>
    intro rest
    have h : escape (c :: s) = escChar c ++ escape s := rfl
    rw [h, List.append_assoc]
    by_cases h1 : c = '\\'
    · subst h1
      simp only [escChar, if_pos rfl]
      simp [parseQuoted, unescChar, ih rest]
    · by_cases h2 : c = '"'
      · subst h2
        simp +decide only [escChar]
        simp [parseQuoted, unescChar, ih rest]
      · by_cases h3 : c = '\n'
        · subst h3
          simp +decide only [escChar]
          simp [parseQuoted, unescChar, ih rest]
        · by_cases h4 : c = '\t'
          · subst h4
            simp +decide only [escChar]
            simp [parseQuoted, unescChar, ih rest]
          · by_cases h5 : c = '\r'
            · subst h5
              simp +decide only [escChar]
              simp [parseQuoted, unescChar, ih rest]
            · rw [show escChar c = [c] from by
                simp only [escChar, if_neg h1, if_neg h2, if_neg h3, if_neg h4, if_neg h5]]
              rw [List.singleton_append]
              rw [parseQuoted.eq_def]
              dsimp only
              rw [if_neg h2, if_neg h1, ih rest]

theorem takeWhile_append_all {p : Char → Bool} :
    ∀ (l : List Char) (b : Char) (r : List Char),
    (∀ c ∈ l, p c = true) → p b = false →
    (l ++ b :: r).takeWhile p = l := by
  intro l
  induction l with
  | nil =>
    intro b r _ hb
    rw [List.nil_append, List.takeWhile_cons, hb]
    simp
  | cons c l ih =>
    intro b r hl hb
    rw [List.cons_append, List.takeWhile_cons, hl c (List.mem_cons_self c l)]
    rw [ih b r (fun d hd => hl d (List.mem_cons_of_mem _ hd)) hb]
    simp

theorem isBareKey_ne_nil {k : String} (h : isBareKey k = true) : k.data ≠ [] := by
  unfold isBareKey at h
  simp only [Bool.and_eq_true] at h
  obtain ⟨h1, _⟩ := h
  intro hnil
  rw [hnil] at h1
  simp at h1

theorem isBareKey_chars {k : String} (h : isBareKey k = true) :
    ∀ c ∈ k.data, isBareChar c = true := by
  unfold isBareKey at h
  simp only [Bool.and_eq_true] at h
  obtain ⟨_, h2⟩ := h
  exact fun c hc => (List.all_eq_true.mp h2) c hc

theorem parseKey_enc (k : String) (rest : List Char) :
    parseKey (encKey k ++ ']' :: rest) = some (k.data, ']' :: rest) := by
  unfold encKey
  by_cases hbare : isBareKey k = true
  · rw [if_pos hbare]
    rcases hd : k.data with _ | ⟨c, cs⟩
    · exact absurd hd (isBareKey_ne_nil hbare)
    · rw [List.cons_append, parseKey.eq_def]
      dsimp only
      have hc : isBareChar c = true := by
        apply isBareKey_chars hbare
        rw [hd]
        exact List.mem_cons_self c cs
      have hcq : ¬ c = '"' := by
        intro hceq
        rw [hceq] at hc
        simp [isBareChar] at hc
      rw [if_neg hcq]
      have htake : ((c :: cs) ++ ']' :: rest).takeWhile isBareChar = c :: cs := by
        apply takeWhile_append_all
        · intro d hdm
          apply isBareKey_chars hbare
          rw [hd]
          exact hdm
        · decide
      rw [← List.cons_append, htake]
      rw [if_neg (by simp)]
      rw [show ((c :: cs) ++ ']' :: rest).drop (c :: cs).length = ']' :: rest from
        List.drop_left _ _]
  · rw [if_neg hbare]
    rw [List.cons_append, parseKey.eq_def]
    dsimp only
    rw [if_pos rfl, List.append_assoc, List.cons_append, List.nil_append]
    exact parseQuoted_escape k.data (']' :: rest)

/-! ## Decimal printing inverts decimal parsing -/

theorem toDigitsCore_acc (fuel : Nat) : ∀ (n : Nat) (acc : List Char),
    Nat.toDigitsCore 10 fuel n acc = Nat.toDigitsCore 10 fuel n [] ++ acc := by
  induction fuel with
  | zero => intro n acc; rfl
  | succ f ih =>
    intro n acc
    simp only [Nat.toDigitsCore]
    split
    · rfl
    · rw [ih (n / 10) (Nat.digitChar (n % 10) :: acc), ih (n / 10) [Nat.digitChar (n % 10)]]
      rw [List.append_assoc]
      rfl

theorem toDigitsCore_fuel : ∀ (n f1 f2 : Nat) (acc : List Char), n < f1 → n < f2 →
    Nat.toDigitsCore 10 f1 n acc = Nat.toDigitsCore 10 f2 n acc := by
  intro n
  induction n using Nat.strong_induction_on with
  | _ n ih =>
    intro f1 f2 acc h1 h2
    rcases f1 with _ | f1
    · omega
    rcases f2 with _ | f2
    · omega
    simp only [Nat.toDigitsCore]
    split
    · rfl
    · next hne =>
      have hn10 : n / 10 < n := Nat.div_lt_self (by omega) (by omega)
      exact ih (n / 10) hn10 f1 f2 _ (by omega) (by omega)

theorem charVal_digitChar {m : Nat} (h : m < 10) :
    charVal (Nat.digitChar m) = m := by
  interval_cases m <;> decide

theorem digitsVal_append_last (l : List Char) (c : Char) :
    digitsVal (l ++ [c]) = 10 * digitsVal l + charVal c := by
  unfold digitsVal
  rw [List.foldl_append]
  simp [Nat.mul_comm]

theorem digitsVal_repr : ∀ (n : Nat), digitsVal (Nat.repr n).data = n := by
  intro n
  induction n using Nat.strong_induction_on with
  | _ n ih =>
    have hdata : (Nat.repr n).data = Nat.toDigitsCore 10 (n + 1) n [] := rfl
    rw [hdata]
    simp only [Nat.toDigitsCore]
    split
    · next hz =>
      have hlt : n < 10 := by
        rcases Nat.lt_or_ge n 10 with h | h
        · exact h
        · exfalso
          have : n / 10 ≠ 0 := by
            intro hcontra
            have := Nat.div_eq_zero_iff (by omega : 0 < 10) |>.mp hcontra
            omega
          exact this hz
      have : digitsVal [Nat.digitChar (n % 10)] = charVal (Nat.digitChar (n % 10)) := by
        unfold digitsVal
        simp
      rw [this, charVal_digitChar (Nat.mod_lt _ (by omega))]
      omega
    · next hz =>
      rw [toDigitsCore_acc]
      have hn10 : n / 10 < n := Nat.div_lt_self (by omega) (by omega)
      rw [toDigitsCore_fuel (n / 10) n (n / 10 + 1) [] (by omega) (by omega)]
      rw [digitsVal_append_last]
      have hrec : digitsVal (Nat.toDigitsCore 10 (n / 10 + 1) (n / 10) []) = n / 10 :=
        ih (n / 10) hn10
      rw [hrec, charVal_digitChar (Nat.mod_lt _ (by omega))]
      omega

theorem parseNat_enc (n : Nat) (r : List Char) :
    parseNatChars ((Nat.repr n).data ++ '\n' :: r) = some (n, '\n' :: r) := by
  unfold parseNatChars
  have htake : ((Nat.repr n).data ++ '\n' :: r).takeWhile Char.isDigit = (Nat.repr n).data :=
    takeWhile_append_all _ _ _ (repr_digits n) (by decide)
  rw [htake]
  rw [if_neg (repr_ne_nil n)]
  rw [digitsVal_repr, List.drop_left]

theorem parseEntry_enc (k : String) (e : AppEntry) (rest : List Char) :
    parseEntry (encEntry k e ++ rest) = some ((k, e), rest) := by
  have h1 : "]\n".data = [']', '\n'] := rfl
  have h2 : "\"\n".data = ['"', '\n'] := rfl
  have h3 : "\n".data = ['\n'] := rfl
  have hshape : encEntry k e ++ rest =
      "[games.".data ++ (encKey k ++ (']' :: '\n' ::
        ("dir = \"".data ++ (escape e.dir.data ++ ('"' :: '\n' ::
        ("patch = ".data ++ ((Nat.repr e.patch).data ++ ('\n' :: rest)))))))) := by
    unfold encEntry
    rw [h1, h2, h3]
    simp [List.append_assoc]
  rw [hshape]
  have hlit2 : ∀ (z : List Char), parseLit "]\n".data (']' :: '\n' :: z) = some z :=
    fun z => parseLit_pref "]\n".data z
  have hlitn : ∀ (z : List Char), parseLit "\n".data ('\n' :: z) = some z :=
    fun z => parseLit_pref "\n".data z
  unfold parseEntry
  rw [parseLit_pref]
  dsimp only
  rw [parseKey_enc]
  dsimp only
  rw [hlit2]
  dsimp only
  rw [parseLit_pref]
  dsimp only
  rw [parseQuoted_escape]
  dsimp only
  rw [hlitn]
  dsimp only
  rw [parseLit_pref]
  dsimp only
  rw [parseNat_enc]
  dsimp only
  rw [hlitn]

theorem encEntry_length_pos (k : String) (e : AppEntry) :
    0 < (encEntry k e).length := by
  have h7 : ("[games.".data).length = 7 := rfl
  unfold encEntry
  simp only [List.length_append, h7]
  omega

theorem encEntry_append_ne_nil (k : String) (e : AppEntry) (z : List Char) :
    encEntry k e ++ z ≠ [] := by
  intro h
  have hlen := congrArg List.length h
  rw [List.length_append] at hlen
  simp only [List.length_nil] at hlen
  have := encEntry_length_pos k e
  omega

theorem encChain_length_le : ∀ (g : List (String × AppEntry)),
    g.length ≤ (encChain g).length := by
  intro g
  induction g with
  | nil => simp [encChain]
  | cons kv g ih =>
    rw [encChain, List.length_append, List.length_cons]
    have := encEntry_length_pos kv.1 kv.2
    omega

theorem parseEntries_encChain : ∀ (g : List (String × AppEntry)) (fuel : Nat),
    g.length ≤ fuel → parseEntriesFuel fuel (encChain g) = some g := by
  intro g
  induction g with
  | nil =>
    intro fuel _
    rw [show encChain [] = [] from rfl, parseEntriesFuel.eq_def]
    dsimp only
    rw [if_pos rfl]
  | cons kv g ih =>
    intro fuel hfuel
    rcases fuel with _ | f
    · simp at hfuel
    rw [show encChain (kv :: g) = encEntry kv.1 kv.2 ++ encChain g from rfl]
    rw [parseEntriesFuel.eq_def]
    dsimp only
    rw [if_neg (encEntry_append_ne_nil kv.1 kv.2 (encChain g))]
    rw [parseEntry_enc]
    dsimp only
    rw [ih f (by simpa using hfuel)]

theorem encChain_cons_take (kv : String × AppEntry) (g : List (String × AppEntry)) :
    (encChain (kv :: g)).take 7 = "[games.".data := by
  rw [show encChain (kv :: g) = encEntry kv.1 kv.2 ++ encChain g from rfl]
  unfold encEntry
  simp only [List.append_assoc]
  rw [List.take_append_eq_append_take]
  rw [show ("[games.".data).length = 7 from rfl]
  rw [show List.take 7 ("[games.".data) = "[games.".data from rfl]
  simp

/-- Save-then-load round trip of the manifest file. -/
theorem decode_enc (g : List (String × AppEntry)) :
    decodeManifest (encManifest g) = some g := by
  rcases g with _ | ⟨kv, g⟩
  · unfold encManifest decodeManifest
    rw [if_pos rfl, if_pos rfl]
  · have henc : encManifest (kv :: g) = encChain (kv :: g) := by
      unfold encManifest
      rw [if_neg (by simp)]
    have hneq : encChain (kv :: g) ≠ "[games]\n".data := by
      intro h
      have htake := congrArg (List.take 7) h
      rw [encChain_cons_take] at htake
      exact absurd htake (by decide)
    unfold decodeManifest
    rw [henc, if_neg hneq]
    exact parseEntries_encChain (kv :: g) _ (encChain_length_le (kv :: g))

/-- C9: saving a manifest (its `games` map built by `HashMap::insert`,
later entries winning duplicate-name collisions) to the
`install.manifest` serialization and loading it back yields exactly the
same entries with the same `dir` and `patch` values, for every N ≥ 0. -/
theorem claim9_theorem (entries : List (String × AppEntry)) :
    decodeManifest (encManifest (mkGames entries)) = some (mkGames entries) :=
  decode_enc (mkGames entries)

end AppLauncher
